import Mathlib

/-!
# Art-Bridge smart-search core: a shallow embedding

A shallow embedding in Lean of the relaxation-and-ranking core of the
`art-bridge` repository — the `QueryAnalyzer`, `ScoreCalculator` and
`SmartSearchService` classes and the pure score computation of
`KopisService.getTrendingPerformances` — together with proofs about the
specified behaviour.  JavaScript runtime behaviour that the core depends on
(`parseInt`, `Date` calendar arithmetic, falsy-or defaulting, `Array.slice`,
string comparison) is modelled explicitly.  The upstream KOPIS client is
modelled as a record of (possibly failing) functions so that searches can be
analysed against an arbitrary mocked upstream.  Exceptions are modelled with
`Except Unit`.
-/

namespace ArtBridge

/-! ## JavaScript value and primitive model -/

/-- A JavaScript value as it can appear in the untyped `args` record for the
date fields (`analyze(toolName, args: any)` receives arbitrary JSON).  `undef`
is `undefined`/absent. -/
inductive JVal where
  | undef : JVal
  | str : String → JVal
  | num : Int → JVal
  | boolean : Bool → JVal
deriving DecidableEq, Repr

/-- JavaScript truthiness of a `JVal` (`undefined`, `""`, `0`, `false` are
falsy). -/
def JVal.truthy : JVal → Bool
  | .undef => false
  | .str s => s ≠ ""
  | .num n => n ≠ 0
  | .boolean b => b

/-- Calling a string method such as `.substring` on a value: succeeds on a
string, throws a `TypeError` on any non-string (the model only ever calls this
on truthy values, mirroring the source's preceding falsiness checks). -/
def JVal.asJsString : JVal → Except Unit String
  | .str s => Except.ok s
  | _ => Except.error ()

/-- JavaScript string conversion of a `JVal` (used where the source passes a
date value into a string-typed position of the score calculator; in the
source the coercion happens implicitly inside comparisons instead, which can
differ from this for truthy non-string dates, but no proved property depends
on score values in that corner). -/
def JVal.toJsString : JVal → String
  | .undef => "undefined"
  | .str s => s
  | .num n => toString n
  | .boolean b => if b then "true" else "false"

/-- Model of `v || d` on an optional integer (JS falsy-or: `0` falls back to the
default). -/
def jsOrInt (v : Option Int) (d : Int) : Int :=
  match v with
  | none => d
  | some n => if n = 0 then d else n

/-- Model of `v || d` on an already-present integer (JS falsy-or). -/
def jsOrIntV (v d : Int) : Int := if v = 0 then d else v

/-- Model of `a || b` on optional strings (JS falsy-or: the empty string falls back). -/
def jsOrStr (a b : Option String) : Option String :=
  match a with
  | none => b
  | some s => if s = "" then b else some s

/-- Model of `a || b` on `JVal`s (JS falsy-or). -/
def jsOrJV (a b : JVal) : JVal := if a.truthy then a else b

/-- Whitespace skipped by `parseInt`. -/
def isJsSpace (c : Char) : Bool :=
  c = ' ' ∨ c = '\t' ∨ c = '\n' ∨ c = '\r'

/-- Decimal digit run parser: longest prefix of decimal digits, `none` when
empty (JS `NaN`). -/
def parseDecDigits (cs : List Char) : Option Nat :=
  let ds := cs.takeWhile Char.isDigit
  if ds.isEmpty then none
  else some (ds.foldl (fun acc c => acc * 10 + (c.toNat - 48)) 0)

/-- Hex digit test. -/
def isHexDigit (c : Char) : Bool :=
  c.isDigit ∨ (c.toLower.toNat ≥ 97 ∧ c.toLower.toNat ≤ 102)

/-- Hex digit run parser. -/
def parseHexDigits (cs : List Char) : Option Nat :=
  let ds := cs.takeWhile isHexDigit
  if ds.isEmpty then none
  else some (ds.foldl (fun acc c =>
    acc * 16 + (if c.isDigit then c.toNat - 48 else c.toLower.toNat - 87)) 0)

/-- Magnitude part of `parseInt`: an optional `0x`/`0X` prefix selects base
16, otherwise the longest decimal-digit prefix is taken; no digits means
`NaN` (`none`). -/
def parseIntMag (cs : List Char) : Option Nat :=
  match cs with
  | '0' :: 'x' :: rest => parseHexDigits rest
  | '0' :: 'X' :: rest => parseHexDigits rest
  | _ => parseDecDigits cs

/-- JavaScript `parseInt(s)` (radix auto-detected): skip leading whitespace,
optional sign, then the longest digit prefix; `none` models `NaN`. -/
def jsParseInt (s : String) : Option Int :=
  let cs := s.toList.dropWhile isJsSpace
  match cs with
  | '-' :: rest => (parseIntMag rest).map (fun n => -(n : Int))
  | '+' :: rest => (parseIntMag rest).map (fun n => (n : Int))
  | rest => (parseIntMag rest).map (fun n => (n : Int))

/-- JavaScript `s.substring(a, b)` for constant `a ≤ b` (clamped to the
string length). -/
def jsSubstring (s : String) (a b : Nat) : String :=
  ((s.toList.drop a).take (b - a)).asString

/-- JavaScript string `<` (lexicographic by code unit; the strings compared
by the core are ASCII digit strings, where code-unit and code-point order
agree). -/
def jsStrLtB : List Char → List Char → Bool
  | [], [] => false
  | [], _ :: _ => true
  | _ :: _, [] => false
  | a :: as, b :: bs =>
    if a.toNat < b.toNat then true
    else if b.toNat < a.toNat then false
    else jsStrLtB as bs

/-- JavaScript string `a >= b`. -/
def jsStrGe (a b : String) : Bool := ! jsStrLtB a.toList b.toList

/-- JavaScript string `a <= b`. -/
def jsStrLe (a b : String) : Bool := ! jsStrLtB b.toList a.toList

/-- Does `hay` contain `needle` as a contiguous substring
(JS `String.prototype.includes`)? -/
def listContainsSub (hay needle : List Char) : Bool :=
  match hay with
  | [] => needle.isEmpty
  | _ :: tl => needle.isPrefixOf hay || listContainsSub tl needle

/-- Model of `hay.includes(needle)`. -/
def strIncludes (hay needle : String) : Bool :=
  listContainsSub hay.toList needle.toList

/-! ## Calendar model (JavaScript `Date`)

Day numbers count days since the Unix epoch in local (KST, DST-free) time, so
`getTime()` of a local-midnight date is dayNumber · 86400000 ms.  The
algorithms are the standard proleptic-Gregorian civil-date conversions; the
`Date` constructor additionally normalises out-of-range month/day fields and
maps two-digit years to 1900–1999. -/

/-- Days from the epoch for a civil date with month `m ∈ 1..12` and an
arbitrary (possibly out-of-range) day `d`, which shifts linearly. -/
def daysFromCivil (y m d : Int) : Int :=
  let y := if m ≤ 2 then y - 1 else y
  let era := y.fdiv 400
  let yoe := y - era * 400
  let mp := if m > 2 then m - 3 else m + 9
  let doy := (153 * mp + 2).fdiv 5 + d - 1
  let doe := yoe * 365 + yoe.fdiv 4 - yoe.fdiv 100 + doy
  era * 146097 + doe - 719468

/-- Inverse of `daysFromCivil`: the normalised `(year, month 1..12, day)` of
an epoch day number. -/
def civilFromDays (z : Int) : Int × Int × Int :=
  let z := z + 719468
  let era := z.fdiv 146097
  let doe := z - era * 146097
  let yoe := (doe - doe.fdiv 1460 + doe.fdiv 36524 - doe.fdiv 146096).fdiv 365
  let y := yoe + era * 400
  let doy := doe - (365 * yoe + yoe.fdiv 4 - yoe.fdiv 100)
  let mp := (5 * doy + 2).fdiv 153
  let d := doy - (153 * mp + 2).fdiv 5 + 1
  let m := if mp < 10 then mp + 3 else mp - 9
  (if m ≤ 2 then y + 1 else y, m, d)

/-- JS `MakeDay`: month overflow is folded into the year (`m` is the 0-based
month index and may be any integer). -/
def makeDay (y m d : Int) : Int :=
  daysFromCivil (y + m.fdiv 12) (m.emod 12 + 1) d

/-- Day number of `new Date(y, m, d)`: `MakeDay` preceded by the constructor's
two-digit-year rule (`0 ≤ y ≤ 99` reads as `1900 + y`). -/
def jsDateCtorDay (y m d : Int) : Int :=
  makeDay (if 0 ≤ y ∧ y ≤ 99 then 1900 + y else y) m d

/-- Day number of
`new Date(parseInt(s.substring(0,4)), parseInt(s.substring(4,6)) - 1,
parseInt(s.substring(6,8)))`; `none` models an `Invalid Date` (some component
`NaN`). -/
def parseYMD (s : String) : Option Int :=
  match jsParseInt (jsSubstring s 0 4), jsParseInt (jsSubstring s 4 6),
      jsParseInt (jsSubstring s 6 8) with
  | some y, some m, some d => some (jsDateCtorDay y (m - 1) d)
  | _, _, _ => none

/-- Model of `String(n).padStart(2, "0")`. -/
def padStart2 (n : Int) : String :=
  let s := toString n
  if s.length < 2 then "0" ++ s else s

/-- Model of `formatDate`: `YYYYMMDD` from a year, a 0-based month index and a day
(all already normalised). -/
def formatDate (y m d : Int) : String :=
  toString y ++ padStart2 (m + 1) ++ padStart2 d

/-! ## Data model (`search.types.ts`) -/

/-- Model of `SearchPriority`. -/
inductive SearchPriority where
  | price | date | genre | location | count | popularity
deriving DecidableEq, Repr

/-- Model of `PriorityWeights`: four slots carrying the fixed 40/30/20/10 weights. -/
structure PriorityWeights where
  first : SearchPriority
  second : SearchPriority
  third : SearchPriority
  fourth : Option SearchPriority
deriving DecidableEq, Repr

/-- The `keywords` part of a `QueryAnalysis`. -/
structure Keywords where
  isFree : Bool
  isTrending : Bool
  hasDateKeyword : Bool
  hasCountKeyword : Bool
deriving DecidableEq, Repr

/-- The `parsedParams` part of a `QueryAnalysis` (fields copied verbatim from
the request; `minCount` always set). -/
structure ParsedParams where
  genreCode : Option String
  startDate : JVal
  endDate : JVal
  sidoCode : Option String
  gugunCode : Option String
  minCount : Int
deriving DecidableEq, Repr

/-- Model of `QueryAnalysis`. -/
structure QueryAnalysis where
  priorities : PriorityWeights
  keywords : Keywords
  parsedParams : ParsedParams
deriving DecidableEq, Repr

/-- An upstream event record, restricted to the fields the core reads.  A
missing string field is modelled as `""` (the source normalises with
`|| ''` / optional chaining before use); `popularityScore` is the externally
supplied popularity (present on trending-feed records). -/
structure Event where
  mt20id : String
  prfnm : String
  pcseguidance : String
  prfpdfrom : String
  prfpdto : String
  genrenm : String
  area : String
  popularityScore : Option ℚ
deriving DecidableEq, Repr

/-- Model of `EventScore`: the per-event score breakdown. -/
structure Breakdown where
  priceScore : ℚ
  dateScore : ℚ
  genreScore : ℚ
  locationScore : ℚ
  popularityScore : ℚ
deriving DecidableEq, Repr

/-- Model of `EventScore`. -/
structure EventScore where
  event : Event
  totalScore : ℚ
  breakdown : Breakdown
deriving DecidableEq, Repr

/-- Model of `SmartSearchResult`. -/
structure SmartSearchResult where
  events : List Event
  level : Int
  relaxedConditions : List String
  message : String
  scores : Option (List EventScore)
deriving DecidableEq, Repr

/-- The raw request record as passed to `analyze`/`search`.  The date fields
are arbitrary JS values (the source accepts `any` and only those two fields
are ever used in a type-unsafe way); the remaining fields are strings or
absent. -/
structure Args where
  genreCode : Option String
  startDate : JVal
  endDate : JVal
  sidoCode : Option String
  gugunCode : Option String
  limit : Option Int
deriving DecidableEq, Repr

/-! ## Query Analyzer (`query-analyzer.ts`) -/

/-- Model of `hasSpecificDateRange`: false when either date is falsy; otherwise the
two `YYYYMMDD` strings are parsed into `Date`s and the rounded day difference
is compared with 7 (`NaN ≤ 7` is false; a truthy non-string date throws). -/
def hasSpecificDateRange (args : Args) : Except Unit Bool :=
  if ¬ args.startDate.truthy ∨ ¬ args.endDate.truthy then Except.ok false
  else do
    let sd ← args.startDate.asJsString
    let ed ← args.endDate.asJsString
    match parseYMD sd, parseYMD ed with
    | some s, some e => Except.ok (decide (e - s ≤ 7))
    | _, _ => Except.ok false

/-- Model of `extractKeywords`. -/
def extractKeywords (toolName : String) (args : Args) : Except Unit Keywords := do
  let hasDate ← hasSpecificDateRange args
  Except.ok
    { isFree := toolName = "filter_free_events"
      isTrending := toolName = "get_trending_performances"
      hasDateKeyword := hasDate
      hasCountKeyword := args.limit.isSome }

/-- Model of `determinePriorities` (the `toolName` parameter is unused in the source
as well; everything is keyed off the extracted keywords). -/
def determinePriorities (_toolName : String) (keywords : Keywords) : PriorityWeights :=
  if keywords.isFree then
    ⟨.price, .date, .genre, some .location⟩
  else if keywords.isTrending then
    ⟨.popularity, .count, .genre, some .date⟩
  else if keywords.hasDateKeyword then
    ⟨.date, .count, .genre, some .location⟩
  else
    ⟨.date, .location, .genre, some .count⟩

/-- Model of `parseParameters`: fields copied verbatim; `minCount = args.limit || 3`. -/
def parseParameters (args : Args) : ParsedParams :=
  { genreCode := args.genreCode
    startDate := args.startDate
    endDate := args.endDate
    sidoCode := args.sidoCode
    gugunCode := args.gugunCode
    minCount := jsOrInt args.limit 3 }

/-- Model of `QueryAnalyzer.analyze`. -/
def analyze (toolName : String) (args : Args) : Except Unit QueryAnalysis := do
  let keywords ← extractKeywords toolName args
  let priorities := determinePriorities toolName keywords
  let parsedParams := parseParameters args
  Except.ok { priorities := priorities, keywords := keywords, parsedParams := parsedParams }

/-! ## Static lookup tables -/

/-- Model of `GENRE_CODES`: genre code ↔ display name, in definition (iteration)
order. -/
def GENRE_CODES : List (String × String) :=
  [("AAAA", "연극"), ("BBBC", "무용(서양/한국무용)"), ("BBBE", "대중무용"),
   ("CCCA", "서양음악(클래식)"), ("CCCC", "한국음악(국악)"), ("CCCD", "대중음악"),
   ("EEEA", "복합"), ("EEEB", "서커스/마술"), ("GGGA", "뮤지컬")]

/-- Modelled from the spec: `getGenreName` of the constants module
`src/constants/kopis-codes.ts`, which is not part of the provided sources —
"genre-code↔name maps … read-only constants"; the sibling variant in the
sources resolves a genre code through `GENRE_CODES` falling back to the code
itself. -/
def getGenreName (code : String) : String :=
  (GENRE_CODES.lookup code).getD code

/-- Model of `getGenreName` applied to a possibly-undefined code; in JS an undefined
code interpolates as the text `undefined`. -/
def getGenreNameOpt (code : Option String) : String :=
  match code with
  | some c => getGenreName c
  | none => "undefined"

/-- Modelled from the spec: the district-code → short display-name lookup
(`getAreaName(code, true)`) of the missing `kopis-codes.ts`; "region-code↔name
maps" are read-only constant tables, district codes are 4-digit.  Entries
shown in the repository's tool descriptions; unknown codes fall back to the
code itself. -/
def getAreaNameShort (code : String) : String :=
  ([("1111", "종로구"), ("1168", "강남구")].lookup code).getD code

/-- Modelled from the spec: `getSidoNameShort` of the missing
`kopis-codes.ts` — province-level (2-digit) code → short display name; table
contents as listed in the sibling variant's province map.  Unknown codes fall
back to the code itself. -/
def getSidoNameShort (code : String) : String :=
  ([("11", "서울"), ("26", "부산"), ("27", "대구"), ("28", "인천"),
    ("29", "광주"), ("30", "대전"), ("31", "울산"), ("36", "세종"),
    ("41", "경기"), ("42", "강원"), ("43", "충북"), ("44", "충남"),
    ("45", "전북"), ("46", "전남"), ("47", "경북"), ("48", "경남"),
    ("50", "제주")].lookup code).getD code

/-- Modelled from the spec: `getSidoNameFull` of the missing
`kopis-codes.ts` — full province display name, nationwide when no code was
supplied ("province-level-or-nationwide location … or nationwide if none"). -/
def getSidoNameFull (code : Option String) : String :=
  match code with
  | none => "전국"
  | some c =>
    ([("11", "서울특별시"), ("26", "부산광역시"), ("41", "경기도")].lookup c).getD c

/-- Modelled from the spec: `extractSidoCode` of the missing
`kopis-codes.ts` — "derive province code from whichever region code, district
or province, was supplied, or nationwide if none": the leading 2-digit
province part of a region code, undefined from undefined. -/
def extractSidoCode (code : Option String) : Option String :=
  match code with
  | none => none
  | some c => some (jsSubstring c 0 2)

/-! ## Score Calculator (`score-calculator.ts`) -/

/-- The target date span of the scoring criteria (`stop` models the source's
`end` field, which is a reserved word here). -/
structure DateRange where
  start : String
  stop : String
deriving DecidableEq, Repr

/-- The `criteria` record taken by `scoreAndSort`. -/
structure Criteria where
  targetDate : Option DateRange
  targetLocation : Option String
  targetGenre : Option String
  isFree : Bool
deriving DecidableEq, Repr

/-- Truthiness of an optional string (absent or empty is falsy). -/
def strOptTruthy (o : Option String) : Bool :=
  match o with
  | some s => s ≠ ""
  | none => false

/-- Collect the maximal decimal-digit runs of a character list as numbers
(`priceStr.match(/\d+/g)` followed by `Number`). -/
def digitRunsAux : List Char → Option Nat → List Nat
  | [], none => []
  | [], some n => [n]
  | c :: tl, acc =>
    if c.isDigit then digitRunsAux tl (some ((acc.getD 0) * 10 + (c.toNat - 48)))
    else
      match acc with
      | none => digitRunsAux tl none
      | some n => n :: digitRunsAux tl none

/-- Model of `extractMinPrice`: smallest numeric token of the price text, `none`
models `Infinity` (no token). -/
def extractMinPrice (priceStr : String) : Option Nat :=
  match digitRunsAux priceStr.toList none with
  | [] => none
  | h :: t => some (t.foldl min h)

/-- Model of `calculatePriceScore` (0–100).  The source lowercases the price text
before searching for 무료, but the needle contains no cased letters, so the
lowercasing cannot change the outcome; the `targetIsFree` parameter is unused
in the source body as well. -/
def calculatePriceScore (event : Event) (_targetIsFree : Bool) : ℚ :=
  let priceStr := event.pcseguidance
  let isFree := strIncludes priceStr "무료" || priceStr = "0" || priceStr = "0원"
  if isFree then 100
  else
    match extractMinPrice priceStr with
    | none => 0
    | some minPrice =>
      if minPrice = 0 then 100
      else if minPrice ≤ 5000 then 80
      else if minPrice ≤ 10000 then 60
      else if minPrice ≤ 20000 then 40
      else if minPrice ≤ 50000 then 20
      else 10

/-- Model of `s.replace(/\./g, "")`. -/
def stripDots (s : String) : String :=
  (s.toList.filter (fun c => c ≠ '.')).asString

/-- Model of `calculateDateDiff`: absolute rounded day difference of two `YYYYMMDD`
strings, `none` models `NaN` (after local-midnight subtraction the millisecond
difference is an exact day multiple, so `Math.ceil` is the identity). -/
def calculateDateDiff (date1 date2 : String) : Option Int :=
  match parseYMD date1, parseYMD date2 with
  | some d1, some d2 => some |d2 - d1|
  | _, _ => none

/-- Model of `calculateDateScore` (0–100): neutral 50 without a target span, 100 for
full containment, 70 for overlap, then banded by start-date distance (every
comparison with a `NaN` difference is false, giving 0). -/
def calculateDateScore (event : Event) (targetDate : Option DateRange) : ℚ :=
  match targetDate with
  | none => 50
  | some td =>
    let eventStart := stripDots event.prfpdfrom
    let eventEnd := stripDots event.prfpdto
    if jsStrGe eventStart td.start ∧ jsStrLe eventEnd td.stop then 100
    else if jsStrLe eventStart td.stop ∧ jsStrGe eventEnd td.start then 70
    else
      match calculateDateDiff td.start eventStart with
      | none => 0
      | some diff =>
        if diff ≤ 7 then 50
        else if diff ≤ 14 then 30
        else if diff ≤ 30 then 10
        else 0

/-- The four fixed similar-genre pairs. -/
def similarPairs : List (List String) :=
  [["연극", "뮤지컬"], ["서양음악(클래식)", "한국음악(국악)"],
   ["무용(서양/한국무용)", "대중무용"], ["복합", "서커스/마술"]]

/-- Model of `calculateGenreScore` (0–100). -/
def calculateGenreScore (event : Event) (targetGenreCode : Option String) : ℚ :=
  if ¬ strOptTruthy targetGenreCode then 50
  else
    let code := targetGenreCode.getD ""
    if event.genrenm = "" then 0
    else
      let targetGenreName := getGenreName code
      if event.genrenm = targetGenreName then 100
      else if strIncludes event.genrenm targetGenreName
          || strIncludes targetGenreName event.genrenm then 90
      else if similarPairs.any (fun p =>
          p.contains event.genrenm && p.contains targetGenreName) then 60
      else 0

/-- Model of `calculateLocationScore` (0–100). -/
def calculateLocationScore (event : Event) (targetLocation : Option String) : ℚ :=
  if ¬ strOptTruthy targetLocation then 50
  else
    let loc := targetLocation.getD ""
    let eventArea := event.area
    if loc.length = 4 ∧ strIncludes eventArea (getAreaNameShort loc) then 100
    else if 2 ≤ loc.length ∧ strIncludes eventArea (getSidoNameShort (jsSubstring loc 0 2)) then 60
    else 0

/-- Model of `v || 50` on the externally supplied popularity (JS falsy-or). -/
def jsOrQ (v : Option ℚ) (d : ℚ) : ℚ :=
  match v with
  | none => d
  | some q => if q = 0 then d else q

/-- The slot weight a scoring dimension receives.  The source builds a JS
object with computed keys `first/second/third/(fourth || count)` mapping to
0.4/0.3/0.2/0.1 and reads missing keys as 0; a duplicated key is overwritten
by the later slot, which is why the later slots are consulted first here. -/
def weightFor (p : PriorityWeights) (dim : SearchPriority) : ℚ :=
  if (p.fourth.getD .count) = dim then 0.1
  else if p.third = dim then 0.2
  else if p.second = dim then 0.3
  else if p.first = dim then 0.4
  else 0

/-- Model of `ScoreCalculator.calculateScore`: the five sub-scores and the weighted
total (the `count` dimension never contributes a term). -/
def calculateScore (event : Event) (priorities : PriorityWeights)
    (criteria : Criteria) : EventScore :=
  let breakdown : Breakdown :=
    { priceScore := calculatePriceScore event criteria.isFree
      dateScore := calculateDateScore event criteria.targetDate
      genreScore := calculateGenreScore event criteria.targetGenre
      locationScore := calculateLocationScore event criteria.targetLocation
      popularityScore := jsOrQ event.popularityScore 50 }
  let totalScore :=
    breakdown.priceScore * weightFor priorities .price +
    breakdown.dateScore * weightFor priorities .date +
    breakdown.genreScore * weightFor priorities .genre +
    breakdown.locationScore * weightFor priorities .location +
    breakdown.popularityScore * weightFor priorities .popularity
  { event := event, totalScore := totalScore, breakdown := breakdown }

/-- Descending order on `totalScore`, the order produced by the source's
comparator `(a, b) => b.totalScore - a.totalScore`. -/
def scoreGE (a b : EventScore) : Prop := b.totalScore ≤ a.totalScore

instance : DecidableRel scoreGE :=
  fun a b => inferInstanceAs (Decidable (b.totalScore ≤ a.totalScore))

instance : IsTotal EventScore scoreGE := ⟨fun a b => le_total b.totalScore a.totalScore⟩

instance : IsTrans EventScore scoreGE := ⟨fun _ _ _ h1 h2 => le_trans h2 h1⟩

/-- Model of `ScoreCalculator.scoreAndSort`: score every event and sort by descending
total score.  `Array.prototype.sort` is a stable sort; the stable
`insertionSort` on the same total preorder produces the identical list. -/
def scoreAndSort (events : List Event) (priorities : PriorityWeights)
    (criteria : Criteria) : List EventScore :=
  List.insertionSort scoreGE (events.map (fun e => calculateScore e priorities criteria))

/-! ## The pure score computation of `KopisService.getTrendingPerformances` -/

/-- The popularity attached to the `rank`-th box-office entry (1-based):
`max(0, 100 - (rank-1)*2)` plus an urgency bonus of 10 when the performance
ends within 14 days. -/
def trendingPopularityScore (rank daysUntilEnd : Int) : ℚ :=
  ((max 0 (100 - (rank - 1) * 2) : Int) : ℚ) +
    (if daysUntilEnd ≤ 14 then 10 else 0)

/-! ## Upstream client interface

`KopisService` as consumed by the engine.  Each operation may fail (transport
failure, modelled as `Except.error ()`); on success `fetchByTool` reads the
event list out of the response wrapper (`result.events` /
`result.performances`), so the model returns the lists directly.  Quantifying
over `Upstream` quantifies over every mocked upstream client. -/

/-- Parameters of `kopisService.filterFreeEvents` as built by the engine. -/
structure FreeParams where
  genreCode : Option String
  sidoCode : Option String
  limit : Int
deriving DecidableEq, Repr

/-- Parameters of `kopisService.getTrendingPerformances` as built by the
engine. -/
structure TrendingParams where
  genreCode : Option String
  limit : Int
deriving DecidableEq, Repr

/-- Parameters of `kopisService.searchEventsByLocation` as built by the
engine (the date fields are passed through verbatim). -/
structure LocParams where
  genreCode : Option String
  startDate : JVal
  endDate : JVal
  sidoCode : Option String
  gugunCode : Option String
  limit : Int
deriving DecidableEq, Repr

/-- A (mocked) upstream listing client. -/
structure Upstream where
  filterFreeEvents : FreeParams → Except Unit (List Event)
  getTrendingPerformances : TrendingParams → Except Unit (List Event)
  searchEventsByLocation : LocParams → Except Unit (List Event)

/-! ## Smart Search Service (`smart-search.service.ts`) -/

/-- The current local date/time, which `executeLevel4` reads via
`new Date()`: calendar components plus the milliseconds since local
midnight.  `month` is the 0-based month index, as `getMonth()` returns. -/
structure Today where
  year : Int
  month : Int
  day : Int
  todMs : Int
deriving DecidableEq, Repr

/-- The `{ events, relaxed }` record each `executeLevelN` resolves to. -/
structure LevelResult where
  events : List Event
  relaxed : List String
deriving DecidableEq, Repr

/-- Model of `getRelatedGenres`: the fixed similarity map including the genre itself;
an unknown (or undefined) code maps to the singleton of itself. -/
def getRelatedGenres (genreCode : Option String) : List (Option String) :=
  match genreCode with
  | none => [none]
  | some g =>
    let m : List (String × List String) :=
      [("AAAA", ["AAAA", "GGGA"]), ("GGGA", ["GGGA", "AAAA"]),
       ("CCCA", ["CCCA", "CCCC"]), ("CCCC", ["CCCC", "CCCA"]),
       ("BBBC", ["BBBC", "BBBE"]), ("BBBE", ["BBBE", "BBBC"]),
       ("CCCD", ["CCCD"]), ("EEEA", ["EEEA", "EEEB"]), ("EEEB", ["EEEB", "EEEA"])]
    ((m.lookup g).getD [g]).map some

/-- Model of `deduplicateEvents` worker: keep an event iff its id has not been seen. -/
def dedupAux (seen : List String) : List Event → List Event
  | [] => []
  | e :: rest =>
    if e.mt20id ∈ seen then dedupAux seen rest
    else e :: dedupAux (e.mt20id :: seen) rest

/-- Model of `deduplicateEvents`: filter by first occurrence of `mt20id`. -/
def deduplicateEvents (events : List Event) : List Event := dedupAux [] events

/-- Model of `fetchByTool`: dispatch one upstream call according to the tool name. -/
def fetchByTool (u : Upstream) (toolName : String) (args : Args) :
    Except Unit (List Event) :=
  if toolName = "filter_free_events" then
    u.filterFreeEvents
      { genreCode := args.genreCode, sidoCode := args.sidoCode,
        limit := jsOrInt args.limit 50 }
  else if toolName = "get_trending_performances" then
    u.getTrendingPerformances
      { genreCode := args.genreCode, limit := jsOrInt args.limit 50 }
  else
    u.searchEventsByLocation
      { genreCode := args.genreCode, startDate := args.startDate,
        endDate := args.endDate, sidoCode := args.sidoCode,
        gugunCode := args.gugunCode, limit := jsOrInt args.limit 50 }

/-- Model of `executeLevel1`: the request exactly as given. -/
def executeLevel1 (u : Upstream) (toolName : String) (args : Args) :
    Except Unit LevelResult := do
  let events ← fetchByTool u toolName args
  Except.ok ⟨events, []⟩

/-- Model of `executeLevel2`: relax one low-priority axis (location for the free-event
mode, one related genre otherwise; a trending request without a genre is
re-issued unchanged). -/
def executeLevel2 (u : Upstream) (toolName : String) (args : Args) :
    Except Unit LevelResult :=
  if toolName = "filter_free_events" then do
    let modifiedArgs : Args :=
      { genreCode := args.genreCode, sidoCode := extractSidoCode args.sidoCode,
        limit := some (jsOrInt args.limit 50),
        startDate := .undef, endDate := .undef, gugunCode := none }
    let events ← fetchByTool u toolName modifiedArgs
    Except.ok ⟨events, ["위치: 구/군 → 시/도 전체"]⟩
  else if toolName = "get_trending_performances" then
    if ¬ strOptTruthy args.genreCode then do
      let events ← fetchByTool u toolName args
      Except.ok ⟨events, []⟩
    else do
      let batches ← ((getRelatedGenres args.genreCode).take 2).mapM (fun genre =>
        fetchByTool u toolName
          { genreCode := genre, limit := some (jsOrInt args.limit 50),
            startDate := .undef, endDate := .undef, sidoCode := none, gugunCode := none })
      let events := deduplicateEvents batches.flatten
      Except.ok ⟨events, ["장르: " ++ getGenreNameOpt args.genreCode ++ " + 유사 장르 1개"]⟩
  else do
    let batches ← ((getRelatedGenres args.genreCode).take 2).mapM (fun genre =>
      fetchByTool u toolName { args with genreCode := genre })
    let events := deduplicateEvents batches.flatten
    Except.ok ⟨events, ["장르: " ++ getGenreNameOpt args.genreCode ++ " + 유사 장르 1개"]⟩

/-- Model of `executeLevel3`: relax two axes (mode-dependent; a missing genre skips
the genre fan-out). -/
def executeLevel3 (u : Upstream) (toolName : String) (args : Args) :
    Except Unit LevelResult :=
  if toolName = "filter_free_events" then
    if ¬ strOptTruthy args.genreCode then do
      let modifiedArgs : Args :=
        { genreCode := args.genreCode, sidoCode := extractSidoCode args.sidoCode,
          limit := some (jsOrInt args.limit 50),
          startDate := .undef, endDate := .undef, gugunCode := none }
      let events ← fetchByTool u toolName modifiedArgs
      Except.ok ⟨events, ["위치: 구/군 → 시/도 전체"]⟩
    else do
      let batches ← (getRelatedGenres args.genreCode).mapM (fun genre =>
        fetchByTool u toolName
          { genreCode := genre, sidoCode := extractSidoCode args.sidoCode,
            limit := some (jsOrInt args.limit 20),
            startDate := .undef, endDate := .undef, gugunCode := none })
      let events := deduplicateEvents batches.flatten
      Except.ok ⟨events, ["위치: 구/군 → 시/도 전체",
        "장르: " ++ getGenreNameOpt args.genreCode ++ " + 유사 장르"]⟩
  else if toolName = "get_trending_performances" then
    if ¬ strOptTruthy args.genreCode then do
      let events ← fetchByTool u toolName args
      Except.ok ⟨events, ["날짜: 최근 30일 범위로 확장"]⟩
    else do
      let batches ← (getRelatedGenres args.genreCode).mapM (fun genre =>
        fetchByTool u toolName
          { genreCode := genre, limit := some (jsOrInt args.limit 20),
            startDate := .undef, endDate := .undef, sidoCode := none, gugunCode := none })
      let events := deduplicateEvents batches.flatten
      Except.ok ⟨events, ["장르: " ++ getGenreNameOpt args.genreCode ++ " + 유사 장르",
        "날짜: 최근 30일 범위로 확장"]⟩
  else do
    let sidoCode := extractSidoCode (jsOrStr args.gugunCode args.sidoCode)
    let batches ← (getRelatedGenres args.genreCode).mapM (fun genre =>
      fetchByTool u toolName
        { args with genreCode := genre, sidoCode := sidoCode, gugunCode := none })
    let events := deduplicateEvents batches.flatten
    Except.ok ⟨events, ["위치: 구/군 → 시/도 전체",
      "장르: " ++ getGenreNameOpt args.genreCode ++ " + 유사 장르"]⟩

/-- The end date `executeLevel4` queries with: one month from today, or the
caller-supplied end date when that parses to a strictly later instant.  Only
this computation can throw (a `substring` call on a truthy non-string
`endDate`). -/
def level4EndDate (args : Args) (today : Today) : Except Unit String :=
  let oneMonthDay := makeDay today.year (today.month + 1) today.day
  let oneMonthStr :=
    match civilFromDays oneMonthDay with
    | (my, mm, md) => formatDate my (mm - 1) md
  if args.endDate.truthy then do
    let es ← args.endDate.asJsString
    match parseYMD es with
    | some reqEnd =>
      pure (if oneMonthDay * 86400000 + today.todMs < reqEnd * 86400000 then es
        else oneMonthStr)
    | none => pure oneMonthStr
  else pure oneMonthStr

/-- Model of `executeLevel4`: fixed maximum relaxation — derived province (or
nationwide), every known genre with per-genre failures skipped, and a window
of today through one month out (keeping a later caller-supplied end date);
the fan-out itself never propagates a failure. -/
def executeLevel4 (u : Upstream) (toolName : String) (args : Args)
    (today : Today) : Except Unit LevelResult := do
  let startDate := formatDate today.year today.month today.day
  let endDate ← level4EndDate args today
  let sidoCode := extractSidoCode (jsOrStr args.gugunCode args.sidoCode)
  let batches := GENRE_CODES.map (fun gp =>
    let call : Except Unit (List Event) :=
      if toolName = "filter_free_events" then
        u.filterFreeEvents { genreCode := some gp.1, sidoCode := sidoCode, limit := 10 }
      else if toolName = "get_trending_performances" then
        u.getTrendingPerformances { genreCode := some gp.1, limit := 10 }
      else
        u.searchEventsByLocation
          { genreCode := some gp.1, startDate := .str startDate,
            endDate := .str endDate, sidoCode := sidoCode, gugunCode := none,
            limit := 10 }
    match call with
    | .ok evs => evs
    | .error _ => [])
  let events := deduplicateEvents batches.flatten
  Except.ok ⟨events,
    ["위치: " ++ getSidoNameFull sidoCode ++ " 전체", "장르: 모든 장르",
     "날짜: 한달 이내 (" ++ startDate ++ " ~ " ++ endDate ++ ")"]⟩

/-- Model of `arr.slice(0, n)`, including the JS semantics of a negative end index. -/
def jsSliceTo {α : Type} (l : List α) (n : Int) : List α :=
  if n < 0 then l.take (max 0 ((l.length : Int) + n)).toNat else l.take n.toNat

/-- Model of `generateMessage` (the source indexes a message array by level; levels 0
and 1 never reach the array). -/
def generateMessage (level : Int) (relaxed : List String) (count : Int)
    (_minCount : Int) : String :=
  if level = 1 then
    "✅ 요청 조건에 완벽히 맞는 공연 " ++ toString count ++ "개를 찾았습니다!"
  else
    let message :=
      if level = 2 then
        "🔍 조건을 일부 완화하여 " ++ toString count ++ "개의 공연을 찾았습니다."
      else if level = 3 then
        "🔎 더 많은 선택지를 위해 조건을 확장했습니다. " ++ toString count ++ "개의 공연을 찾았습니다."
      else if level = 4 then
        "🌐 최대 범위로 검색하여 " ++ toString count ++ "개의 공연을 찾았습니다."
      else ""
    let conditions := String.intercalate "\n" (relaxed.map (fun c => "  • " ++ c))
    message ++ "\n\n완화된 조건:\n" ++ conditions

/-- Model of `generateFailureMessage`: names the requested minimum and the count
actually found, followed by the fixed suggestions. -/
def generateFailureMessage (minCount foundCount : Int) : String :=
  "❌ 죄송합니다. 조건에 맞는 공연을 " ++ toString minCount ++
    "개 이상 찾지 못했습니다. (" ++ toString foundCount ++ "개 발견)" ++
    "\n\n다음과 같이 시도해보세요:\n  • 기간을 더 길게 설정 (예: 다음달까지)" ++
    "\n  • 최소 개수를 줄여서 검색 (1~2개)\n  • 지역 제한 없이 전국 검색"

/-- The scoring criteria `formatResult` builds from the analysis (hoisted out
of `formatResult` for reuse in proofs): target span from the parsed start
date (end defaulting to the start), target location `gugun || sido`, target
genre verbatim, free-mode flag. -/
def formatCriteria (analysis : QueryAnalysis) : Criteria :=
  let pp := analysis.parsedParams
  { targetDate :=
      if pp.startDate.truthy then
        some { start := pp.startDate.toJsString
               stop := (jsOrJV pp.endDate pp.startDate).toJsString }
      else none
    targetLocation := jsOrStr pp.gugunCode pp.sidoCode
    targetGenre := pp.genreCode
    isFree := analysis.keywords.isFree }

/-- Model of `formatResult`: score and sort the level's events with the analysis's
priorities and criteria, then keep the top `minCount`. -/
def formatResult (events : List Event) (level : Int) (relaxed : List String)
    (analysis : QueryAnalysis) (minCount : Int) : SmartSearchResult :=
  let scored := scoreAndSort events analysis.priorities (formatCriteria analysis)
  let topEvents := (jsSliceTo scored minCount).map (fun s => s.event)
  { events := topEvents
    level := level
    relaxedConditions := relaxed
    message := generateMessage level relaxed (topEvents.length : Int) minCount
    scores := some (jsSliceTo scored minCount) }

/-- Model of `SmartSearchService.search`: analyze, then walk levels 1–4 in order,
returning at the first level reaching `minCount`; fall through to the level-0
failure result. -/
def search (u : Upstream) (toolName : String) (args : Args) (today : Today) :
    Except Unit SmartSearchResult := do
  let analysis ← analyze toolName args
  let minCount := jsOrIntV analysis.parsedParams.minCount 3
  let level1 ← executeLevel1 u toolName args
  if minCount ≤ (level1.events.length : Int) then
    pure (formatResult level1.events 1 [] analysis minCount)
  else do
    let level2 ← executeLevel2 u toolName args
    if minCount ≤ (level2.events.length : Int) then
      pure (formatResult level2.events 2 level2.relaxed analysis minCount)
    else do
      let level3 ← executeLevel3 u toolName args
      if minCount ≤ (level3.events.length : Int) then
        pure (formatResult level3.events 3 level3.relaxed analysis minCount)
      else do
        let level4 ← executeLevel4 u toolName args today
        if minCount ≤ (level4.events.length : Int) then
          pure (formatResult level4.events 4 level4.relaxed analysis minCount)
        else
          pure { events := level4.events, level := 0,
                 relaxedConditions := level4.relaxed,
                 message := generateFailureMessage minCount (level4.events.length : Int),
                 scores := none }

/-! ## Basic lemmas about the analyzer -/

/-- The function `analyze` expressed through the one fallible step. -/
theorem analyze_eq (tool : String) (args : Args) :
    analyze tool args = (hasSpecificDateRange args).map (fun hd =>
      let kw : Keywords :=
        ⟨tool = "filter_free_events", tool = "get_trending_performances", hd, args.limit.isSome⟩
      ⟨determinePriorities tool kw, kw, parseParameters args⟩) := by
  unfold analyze extractKeywords
  cases hasSpecificDateRange args <;> rfl

/-- The semantic reading of the tight-date-range condition: both dates are
supplied (truthy strings), both parse to valid dates, and the signed
calendar-day difference is at most 7. -/
def SpecificDateRange (args : Args) : Prop :=
  ∃ s e ds de, args.startDate = JVal.str s ∧ s ≠ "" ∧ args.endDate = JVal.str e ∧ e ≠ "" ∧
    parseYMD s = some ds ∧ parseYMD e = some de ∧ de - ds ≤ 7

/-- Bind on a successful `Except` computes. -/
theorem ok_bind {α β : Type} (a : α) (f : α → Except Unit β) :
    (Except.ok a >>= f : Except Unit β) = f a := rfl

/-- Bind on a failed `Except` propagates the failure. -/
theorem error_bind {α β : Type} (f : α → Except Unit β) :
    (Except.error () >>= f : Except Unit β) = Except.error () := rfl

/-- A successful bind through `asJsString` forces the value to be a string. -/
theorem asJsString_bind_ok {β : Type} {v : JVal} {f : String → Except Unit β} {r : β}
    (h : (v.asJsString >>= f) = Except.ok r) : ∃ s, v = JVal.str s ∧ f s = Except.ok r := by
  cases v with
  | str s => exact ⟨s, rfl, h⟩
  | undef => simp only [JVal.asJsString, error_bind] at h; cases h
  | num n => simp only [JVal.asJsString, error_bind] at h; cases h
  | boolean bb => simp only [JVal.asJsString, error_bind] at h; cases h

/-- When `hasSpecificDateRange` returns (does not throw), its result is the
truth value of `SpecificDateRange`. -/
theorem hasSpecificDateRange_iff {args : Args} {b : Bool}
    (h : hasSpecificDateRange args = Except.ok b) : b = true ↔ SpecificDateRange args := by
  unfold hasSpecificDateRange at h
  by_cases ht : (¬ args.startDate.truthy ∨ ¬ args.endDate.truthy)
  · rw [if_pos ht] at h
    cases h
    simp only [Bool.false_eq_true, false_iff]
    rintro ⟨s, e, ds, de, hs, hsne, he, hene, -, -, -⟩
    rcases ht with ht | ht
    · exact ht (by simp [hs, JVal.truthy, hsne])
    · exact ht (by simp [he, JVal.truthy, hene])
  · rw [if_neg ht] at h
    push_neg at ht
    obtain ⟨hts, hte⟩ := ht
    obtain ⟨s, hsd, h⟩ := asJsString_bind_ok h
    obtain ⟨e, hed, h⟩ := asJsString_bind_ok h
    have hsne : s ≠ "" := by rw [hsd] at hts; simpa [JVal.truthy] using hts
    have hene : e ≠ "" := by rw [hed] at hte; simpa [JVal.truthy] using hte
    rcases hps : parseYMD s with _ | ds <;> rcases hpe : parseYMD e with _ | de <;>
      rw [hps, hpe] at h <;> cases h
    · simp only [Bool.false_eq_true, false_iff]
      rintro ⟨s1, e1, ds1, de1, hs1, -, he1, -, hp1, hp2, -⟩
      rw [hsd] at hs1; cases hs1
      rw [hps] at hp1; cases hp1
    · simp only [Bool.false_eq_true, false_iff]
      rintro ⟨s1, e1, ds1, de1, hs1, -, he1, -, hp1, hp2, -⟩
      rw [hsd] at hs1; cases hs1
      rw [hps] at hp1; cases hp1
    · simp only [Bool.false_eq_true, false_iff]
      rintro ⟨s1, e1, ds1, de1, hs1, -, he1, -, hp1, hp2, -⟩
      rw [hed] at he1; cases he1
      rw [hpe] at hp2; cases hp2
    · rw [decide_eq_true_iff]
      constructor
      · intro hle
        exact ⟨s, e, ds, de, hsd, hsne, hed, hene, hps, hpe, hle⟩
      · rintro ⟨s1, e1, ds1, de1, hs1, -, he1, -, hp1, hp2, hle⟩
        rw [hsd] at hs1; cases hs1
        rw [hed] at he1; cases he1
        rw [hps] at hp1; cases hp1
        rw [hpe] at hp2; cases hp2
        exact hle

/-- Successful analysis determines every component. -/
theorem analyze_ok_elim {tool : String} {args : Args} {qa : QueryAnalysis}
    (h : analyze tool args = Except.ok qa) :
    ∃ hd, hasSpecificDateRange args = Except.ok hd ∧
      qa = ⟨determinePriorities tool
              ⟨tool = "filter_free_events", tool = "get_trending_performances", hd, args.limit.isSome⟩,
            ⟨tool = "filter_free_events", tool = "get_trending_performances", hd, args.limit.isSome⟩,
            parseParameters args⟩ := by
  rw [analyze_eq] at h
  cases hDR : hasSpecificDateRange args with
  | error e => rw [hDR] at h; cases h
  | ok hd => rw [hDR] at h; cases h; exact ⟨hd, rfl, rfl⟩

/-! ## Concrete fixtures used by witnesses and counterexamples -/

/-- A free theatre event in Seoul. -/
def evA : Event := ⟨"A", "a", "무료", "2025.10.15", "2025.10.20", "연극", "서울", none⟩

/-- A paid musical event in Seoul. -/
def evB : Event := ⟨"B", "b", "10000원", "2025.10.15", "2025.10.20", "뮤지컬", "서울", none⟩

/-- A dance event in Busan with no price text. -/
def evC : Event := ⟨"C", "c", "", "2025.10.15", "2025.10.20", "무용(서양/한국무용)", "부산", none⟩

/-- A box-office rank-1 performance closing within a week: its feed-supplied
popularity is `trendingPopularityScore 1 7 = 110`. -/
def evTrendTop : Event := ⟨"T", "t", "", "", "", "", "", some (trendingPopularityScore 1 7)⟩

/-- A mocked upstream returning the same three events for every call. -/
def mock3 : Upstream :=
  ⟨fun _ => Except.ok [evA, evB, evC], fun _ => Except.ok [evA, evB, evC],
   fun _ => Except.ok [evA, evB, evC]⟩

/-- A mocked upstream returning the same two events for every call. -/
def mock2 : Upstream :=
  ⟨fun _ => Except.ok [evA, evB], fun _ => Except.ok [evA, evB],
   fun _ => Except.ok [evA, evB]⟩

/-- A mocked upstream whose every call fails. -/
def mockFail : Upstream :=
  ⟨fun _ => Except.error (), fun _ => Except.error (), fun _ => Except.error ()⟩

/-- A mocked upstream whose location search fails exactly for the first
fan-out genre and returns an event for every other genre. -/
def mockSkipA : Upstream :=
  ⟨fun _ => Except.error (), fun _ => Except.error (),
   fun p => if p.genreCode = some "AAAA" then Except.error () else Except.ok [evB]⟩

/-- A fixed current date: 2025-10-11 at local midnight. -/
def today0 : Today := ⟨2025, 9, 11, 0⟩

/-- A plain request: genre only. -/
def argsPlain : Args := ⟨some "AAAA", .undef, .undef, none, none, none⟩

/-- A request with a negative `limit`. -/
def argsNegLimit : Args := ⟨none, .undef, .undef, none, none, some (-1)⟩

/-- A request with a 4-day date span. -/
def argsTight : Args := ⟨some "AAAA", .str "20251001", .str "20251005", some "11", none, some 2⟩

/-! ## C7 — `minCount` defaulting -/

/-- Claim C7 (corrected, counterexample): a negative caller-supplied `limit` is
passed through to `minCount` unchanged (JS `||` only replaces falsy values,
and `-1` is truthy), so `minCount` is not 3 for a negative limit. -/
theorem minCount_negative_passthrough :
    ∃ qa, analyze "search_events_by_location" argsNegLimit = Except.ok qa ∧
      argsNegLimit.limit = some (-1) ∧ qa.parsedParams.minCount = -1 ∧
      qa.parsedParams.minCount ≠ 3 :=
  ⟨_, rfl, rfl, rfl, by decide⟩

/-- Claim C7 (amended): `analyze` sets `parsedParams.minCount` to the
caller-supplied `limit` exactly when `limit` is present and non-zero (so a
negative limit passes through), and to 3 when `limit` is absent or zero. -/
theorem minCount_default_amended (tool : String) (args : Args) (qa : QueryAnalysis)
    (h : analyze tool args = Except.ok qa) :
    ((args.limit = none ∨ args.limit = some 0) → qa.parsedParams.minCount = 3) ∧
    (∀ v : Int, args.limit = some v → v ≠ 0 → qa.parsedParams.minCount = v) := by
  obtain ⟨hd, -, hqa⟩ := analyze_ok_elim h
  subst hqa
  constructor
  · rintro (hl | hl) <;> simp [parseParameters, jsOrInt, hl]
  · intro v hl hv
    simp [parseParameters, jsOrInt, hl, hv]

/-- Witness for `minCount_default_amended` at a concrete request. -/
theorem minCount_default_witness :
    ∃ qa, analyze "search_events_by_location" argsPlain = Except.ok qa ∧
      qa.parsedParams.minCount = 3 := by
  refine ⟨_, rfl, ?_⟩
  exact (minCount_default_amended "search_events_by_location" argsPlain _ rfl).1 (Or.inl rfl)

/-! ## C8 — totality of `analyze` -/

/-- Claim C8 (corrected, counterexample): `analyze` is not total on arbitrary
object-shaped input — two truthy non-string dates make
`hasSpecificDateRange` call `.substring` on a number, a `TypeError`. -/
theorem analyze_type_error :
    analyze "search_events_by_location"
      ⟨none, .num 20250101, .num 20250108, none, none, none⟩ = Except.error () := rfl

/-- Claim C8 (amended): `analyze` is pure and total — it returns a
`QueryAnalysis` — whenever either date field is falsy or both are strings
(any string, malformed or not); only a truthy non-string date value can make
it throw. -/
theorem analyze_total_amended (tool : String) (args : Args)
    (h : ¬ args.startDate.truthy ∨ ¬ args.endDate.truthy ∨
        ((∃ s, args.startDate = JVal.str s) ∧ ∃ e, args.endDate = JVal.str e)) :
    ∃ qa, analyze tool args = Except.ok qa := by
  rw [analyze_eq]
  suffices hs : ∃ b, hasSpecificDateRange args = Except.ok b by
    obtain ⟨b, hb⟩ := hs
    rw [hb]
    exact ⟨_, rfl⟩
  unfold hasSpecificDateRange
  by_cases ht : (¬ args.startDate.truthy ∨ ¬ args.endDate.truthy)
  · rw [if_pos ht]
    exact ⟨false, rfl⟩
  · rw [if_neg ht]
    push_neg at ht
    rcases h with h | h | ⟨⟨s, hs⟩, ⟨e, he⟩⟩
    · exact absurd ht.1 h
    · exact absurd ht.2 h
    · rw [hs, he]
      simp only [JVal.asJsString, ok_bind]
      rcases hps : parseYMD s with _ | ds <;> rcases hpe : parseYMD e with _ | de <;>
        exact ⟨_, rfl⟩

/-- Witness for `analyze_total_amended`: a malformed (but string) end date
still analyses fine. -/
theorem analyze_total_witness :
    ∃ qa, analyze "get_trending_performances"
      ⟨none, .str "20251001", .str "bogus", none, none, none⟩ = Except.ok qa :=
  analyze_total_amended "get_trending_performances" _
    (Or.inr (Or.inr ⟨⟨"20251001", rfl⟩, ⟨"bogus", rfl⟩⟩))

/-! ## C4 — priority assignment -/

/-- Claim C4 (confirmed): whenever `analyze` returns, the priorities are
assigned first-match-wins in the fixed order: free-event mode, trending mode,
tight (≤ 7 day) date range, default — with the slot assignments
price/date/genre/location, popularity/count/genre/date,
date/count/genre/location and date/location/genre/count respectively. -/
theorem priority_assignment (tool : String) (args : Args) (qa : QueryAnalysis)
    (h : analyze tool args = Except.ok qa) :
    (tool = "filter_free_events" →
      qa.priorities = ⟨.price, .date, .genre, some .location⟩) ∧
    (tool ≠ "filter_free_events" → tool = "get_trending_performances" →
      qa.priorities = ⟨.popularity, .count, .genre, some .date⟩) ∧
    (tool ≠ "filter_free_events" → tool ≠ "get_trending_performances" →
      SpecificDateRange args →
      qa.priorities = ⟨.date, .count, .genre, some .location⟩) ∧
    (tool ≠ "filter_free_events" → tool ≠ "get_trending_performances" →
      ¬ SpecificDateRange args →
      qa.priorities = ⟨.date, .location, .genre, some .count⟩) := by
  obtain ⟨hd, hDR, hqa⟩ := analyze_ok_elim h
  subst hqa
  have hiff := hasSpecificDateRange_iff hDR
  refine ⟨?_, ?_, ?_, ?_⟩
  · intro h1
    simp [determinePriorities, h1]
  · intro h1 h2
    simp [determinePriorities, h1, h2]
  · intro h1 h2 h3
    have hdt : hd = true := hiff.mpr h3
    simp [determinePriorities, h1, h2, hdt]
  · intro h1 h2 h3
    have hdf : hd = false := by
      cases hd
      · rfl
      · exact absurd (hiff.mp rfl) h3
    simp [determinePriorities, h1, h2, hdf]

/-- Witness for `priority_assignment`: a by-location search over a 4-day span
gets the date-first weighting. -/
theorem priority_assignment_witness :
    ∃ qa, analyze "search_events_by_location" argsTight = Except.ok qa ∧
      qa.priorities = ⟨.date, .count, .genre, some .location⟩ := by
  refine ⟨_, rfl, ?_⟩
  exact (priority_assignment "search_events_by_location" argsTight _ rfl).2.2.1
    (by decide) (by decide)
    ⟨"20251001", "20251005", jsDateCtorDay 2025 9 1, jsDateCtorDay 2025 9 5,
      rfl, by decide, rfl, by decide, by decide, by decide, by decide⟩

/-! ## C3 — score bounds -/

/-- The `calculateScore` projections computed (the record fields through the
`let` bindings). -/
theorem calculateScore_breakdown (ev : Event) (p : PriorityWeights) (c : Criteria) :
    (calculateScore ev p c).breakdown =
      ⟨calculatePriceScore ev c.isFree, calculateDateScore ev c.targetDate,
       calculateGenreScore ev c.targetGenre, calculateLocationScore ev c.targetLocation,
       jsOrQ ev.popularityScore 50⟩ := rfl

/-- The total is the weighted sum of the five scored dimensions. -/
theorem calculateScore_total (ev : Event) (p : PriorityWeights) (c : Criteria) :
    (calculateScore ev p c).totalScore =
      calculatePriceScore ev c.isFree * weightFor p .price +
      calculateDateScore ev c.targetDate * weightFor p .date +
      calculateGenreScore ev c.targetGenre * weightFor p .genre +
      calculateLocationScore ev c.targetLocation * weightFor p .location +
      jsOrQ ev.popularityScore 50 * weightFor p .popularity := rfl

/-- The scored event is the input event. -/
theorem calculateScore_event (ev : Event) (p : PriorityWeights) (c : Criteria) :
    (calculateScore ev p c).event = ev := rfl

/-- Price sub-score bounds. -/
theorem priceScore_bounds (ev : Event) (b : Bool) :
    0 ≤ calculatePriceScore ev b ∧ calculatePriceScore ev b ≤ 100 := by
  have h : calculatePriceScore ev b ∈ ([100, 0, 80, 60, 40, 20, 10] : List ℚ) := by
    simp only [calculatePriceScore]
    repeat' split
    all_goals simp
  simp only [List.mem_cons, List.not_mem_nil, or_false] at h
  rcases h with h | h | h | h | h | h | h <;> rw [h] <;> norm_num

/-- Date sub-score bounds. -/
theorem dateScore_bounds (ev : Event) (td : Option DateRange) :
    0 ≤ calculateDateScore ev td ∧ calculateDateScore ev td ≤ 100 := by
  have h : calculateDateScore ev td ∈ ([50, 100, 70, 0, 30, 10] : List ℚ) := by
    simp only [calculateDateScore]
    repeat' split
    all_goals simp
  simp only [List.mem_cons, List.not_mem_nil, or_false] at h
  rcases h with h | h | h | h | h | h <;> rw [h] <;> norm_num

/-- Genre sub-score bounds. -/
theorem genreScore_bounds (ev : Event) (tg : Option String) :
    0 ≤ calculateGenreScore ev tg ∧ calculateGenreScore ev tg ≤ 100 := by
  have h : calculateGenreScore ev tg ∈ ([50, 0, 100, 90, 60] : List ℚ) := by
    simp only [calculateGenreScore]
    repeat' split
    all_goals simp
  simp only [List.mem_cons, List.not_mem_nil, or_false] at h
  rcases h with h | h | h | h | h <;> rw [h] <;> norm_num

/-- Location sub-score bounds. -/
theorem locationScore_bounds (ev : Event) (tl : Option String) :
    0 ≤ calculateLocationScore ev tl ∧ calculateLocationScore ev tl ≤ 100 := by
  have h : calculateLocationScore ev tl ∈ ([50, 100, 60, 0] : List ℚ) := by
    simp only [calculateLocationScore]
    repeat' split
    all_goals simp
  simp only [List.mem_cons, List.not_mem_nil, or_false] at h
  rcases h with h | h | h | h <;> rw [h] <;> norm_num

/-- A popularity value as the trending box-office feed produces it: absent,
or the ranked score of some 1-based rank and days-until-end. -/
def FromTrendingFeed (p : Option ℚ) : Prop :=
  p = none ∨ ∃ rank days : Int, 1 ≤ rank ∧ p = some (trendingPopularityScore rank days)

/-- The feed's popularity scores lie in `[0, 110]` (110 at rank 1 closing
within 14 days). -/
theorem trendingPopularityScore_bounds (rank days : Int) (hr : 1 ≤ rank) :
    0 ≤ trendingPopularityScore rank days ∧ trendingPopularityScore rank days ≤ 110 := by
  unfold trendingPopularityScore
  have h0 : (0 : Int) ≤ max 0 (100 - (rank - 1) * 2) := le_max_left 0 _
  have h1 : max 0 (100 - (rank - 1) * 2) ≤ (100 : Int) := by
    apply max_le
    · norm_num
    · omega
  have h0q : (0 : ℚ) ≤ ((max 0 (100 - (rank - 1) * 2) : Int) : ℚ) := by exact_mod_cast h0
  have h1q : ((max 0 (100 - (rank - 1) * 2) : Int) : ℚ) ≤ 100 := by exact_mod_cast h1
  split_ifs <;> constructor <;> linarith

/-- The popularity sub-score for a feed-supplied (or absent) popularity. -/
theorem popularityScore_bounds (p : Option ℚ) (h : FromTrendingFeed p) :
    0 ≤ jsOrQ p 50 ∧ jsOrQ p 50 ≤ 110 := by
  rcases h with h | ⟨rank, days, hr, h⟩ <;> subst h
  · exact ⟨by norm_num [jsOrQ], by norm_num [jsOrQ]⟩
  · obtain ⟨hb0, hb1⟩ := trendingPopularityScore_bounds rank days hr
    simp only [jsOrQ]
    split_ifs
    · exact ⟨by norm_num, by norm_num⟩
    · exact ⟨hb0, hb1⟩

/-- The analyzer produces exactly four weighting configurations. -/
theorem determinePriorities_cases (tool : String) (kw : Keywords) :
    determinePriorities tool kw = ⟨.price, .date, .genre, some .location⟩ ∨
    determinePriorities tool kw = ⟨.popularity, .count, .genre, some .date⟩ ∨
    determinePriorities tool kw = ⟨.date, .count, .genre, some .location⟩ ∨
    determinePriorities tool kw = ⟨.date, .location, .genre, some .count⟩ := by
  unfold determinePriorities
  split_ifs <;> simp

/-- Claim C3 (corrected, counterexample): a trending-feed event of rank 1
ending within 14 days carries popularity 110, and the score breakdown passes
it through — `popularityScore` exceeds 100, so not every sub-score lies in
`[0, 100]`. -/
theorem popularity_score_exceeds_100 :
    evTrendTop.popularityScore = some (trendingPopularityScore 1 7) ∧
    (calculateScore evTrendTop ⟨.popularity, .count, .genre, some .date⟩
        ⟨none, none, none, false⟩).breakdown.popularityScore = 110 ∧
    ¬ ((calculateScore evTrendTop ⟨.popularity, .count, .genre, some .date⟩
        ⟨none, none, none, false⟩).breakdown.popularityScore ≤ 100) := by
  refine ⟨rfl, ?_, ?_⟩ <;>
    norm_num [calculateScore_breakdown, jsOrQ, evTrendTop, trendingPopularityScore]

/-- Claim C3 (amended): the four computed sub-scores (price, date, genre,
location) always lie in `[0, 100]`; the popularity sub-score equals the
externally supplied popularity (default 50) and for trending-feed values lies
in `[0, 110]`, 110 being attained; and for every weighting configuration the
analyzer can produce, the weighted `totalScore` of a feed-scored event still
lies in `[0, 100]`. -/
theorem score_bounds_amended :
    (∀ (ev : Event) (prio : PriorityWeights) (crit : Criteria),
      (0 ≤ (calculateScore ev prio crit).breakdown.priceScore ∧
        (calculateScore ev prio crit).breakdown.priceScore ≤ 100) ∧
      (0 ≤ (calculateScore ev prio crit).breakdown.dateScore ∧
        (calculateScore ev prio crit).breakdown.dateScore ≤ 100) ∧
      (0 ≤ (calculateScore ev prio crit).breakdown.genreScore ∧
        (calculateScore ev prio crit).breakdown.genreScore ≤ 100) ∧
      (0 ≤ (calculateScore ev prio crit).breakdown.locationScore ∧
        (calculateScore ev prio crit).breakdown.locationScore ≤ 100)) ∧
    (∀ (ev : Event) (prio : PriorityWeights) (crit : Criteria),
      FromTrendingFeed ev.popularityScore →
      0 ≤ (calculateScore ev prio crit).breakdown.popularityScore ∧
        (calculateScore ev prio crit).breakdown.popularityScore ≤ 110) ∧
    (∀ (ev : Event) (tool : String) (kw : Keywords) (crit : Criteria),
      FromTrendingFeed ev.popularityScore →
      0 ≤ (calculateScore ev (determinePriorities tool kw) crit).totalScore ∧
        (calculateScore ev (determinePriorities tool kw) crit).totalScore ≤ 100) := by
  refine ⟨?_, ?_, ?_⟩
  · intro ev prio crit
    rw [calculateScore_breakdown]
    exact ⟨priceScore_bounds ev crit.isFree, dateScore_bounds ev crit.targetDate,
      genreScore_bounds ev crit.targetGenre, locationScore_bounds ev crit.targetLocation⟩
  · intro ev prio crit hFeed
    rw [calculateScore_breakdown]
    exact popularityScore_bounds ev.popularityScore hFeed
  · intro ev tool kw crit hFeed
    obtain ⟨hp0, hp1⟩ := priceScore_bounds ev crit.isFree
    obtain ⟨hd0, hd1⟩ := dateScore_bounds ev crit.targetDate
    obtain ⟨hg0, hg1⟩ := genreScore_bounds ev crit.targetGenre
    obtain ⟨hl0, hl1⟩ := locationScore_bounds ev crit.targetLocation
    obtain ⟨hq0, hq1⟩ := popularityScore_bounds ev.popularityScore hFeed
    rcases determinePriorities_cases tool kw with hP | hP | hP | hP <;>
      rw [calculateScore_total, hP]
    · rw [show weightFor ⟨.price, .date, .genre, some .location⟩ .price = 0.4 from rfl,
        show weightFor ⟨.price, .date, .genre, some .location⟩ .date = 0.3 from rfl,
        show weightFor ⟨.price, .date, .genre, some .location⟩ .genre = 0.2 from rfl,
        show weightFor ⟨.price, .date, .genre, some .location⟩ .location = 0.1 from rfl,
        show weightFor ⟨.price, .date, .genre, some .location⟩ .popularity = 0 from rfl]
      constructor <;> linarith
    · rw [show weightFor ⟨.popularity, .count, .genre, some .date⟩ .price = 0 from rfl,
        show weightFor ⟨.popularity, .count, .genre, some .date⟩ .date = 0.1 from rfl,
        show weightFor ⟨.popularity, .count, .genre, some .date⟩ .genre = 0.2 from rfl,
        show weightFor ⟨.popularity, .count, .genre, some .date⟩ .location = 0 from rfl,
        show weightFor ⟨.popularity, .count, .genre, some .date⟩ .popularity = 0.4 from rfl]
      constructor <;> linarith
    · rw [show weightFor ⟨.date, .count, .genre, some .location⟩ .price = 0 from rfl,
        show weightFor ⟨.date, .count, .genre, some .location⟩ .date = 0.4 from rfl,
        show weightFor ⟨.date, .count, .genre, some .location⟩ .genre = 0.2 from rfl,
        show weightFor ⟨.date, .count, .genre, some .location⟩ .location = 0.1 from rfl,
        show weightFor ⟨.date, .count, .genre, some .location⟩ .popularity = 0 from rfl]
      constructor <;> linarith
    · rw [show weightFor ⟨.date, .location, .genre, some .count⟩ .price = 0 from rfl,
        show weightFor ⟨.date, .location, .genre, some .count⟩ .date = 0.4 from rfl,
        show weightFor ⟨.date, .location, .genre, some .count⟩ .genre = 0.2 from rfl,
        show weightFor ⟨.date, .location, .genre, some .count⟩ .location = 0.3 from rfl,
        show weightFor ⟨.date, .location, .genre, some .count⟩ .popularity = 0 from rfl]
      constructor <;> linarith

/-- Witness for `score_bounds_amended` at the rank-1 feed event. -/
theorem score_bounds_witness :
    0 ≤ (calculateScore evTrendTop
        (determinePriorities "get_trending_performances" ⟨false, true, false, false⟩)
        ⟨none, none, none, false⟩).totalScore ∧
      (calculateScore evTrendTop
        (determinePriorities "get_trending_performances" ⟨false, true, false, false⟩)
        ⟨none, none, none, false⟩).totalScore ≤ 100 :=
  score_bounds_amended.2.2 evTrendTop "get_trending_performances"
    ⟨false, true, false, false⟩ ⟨none, none, none, false⟩
    (Or.inr ⟨1, 7, by decide, rfl⟩)

/-! ## De-duplication lemmas -/

/-- Elements kept by `dedupAux` avoid the seen set and have pairwise-distinct
ids. -/
theorem dedupAux_spec (l : List Event) : ∀ seen : List String,
    (∀ e ∈ dedupAux seen l, e.mt20id ∉ seen) ∧
      ((dedupAux seen l).map Event.mt20id).Nodup := by
  induction l with
  | nil =>
    intro seen
    exact ⟨by simp [dedupAux], by simp [dedupAux]⟩
  | cons a tl ih =>
    intro seen
    by_cases ha : a.mt20id ∈ seen
    · simp only [dedupAux, if_pos ha]
      exact ih seen
    · simp only [dedupAux, if_neg ha]
      obtain ⟨ih1, ih2⟩ := ih (a.mt20id :: seen)
      constructor
      · intro e he
        rcases List.mem_cons.mp he with he | he
        · subst he
          exact ha
        · intro hmem
          exact ih1 e he (List.mem_cons_of_mem _ hmem)
      · simp only [List.map_cons, List.nodup_cons]
        refine ⟨?_, ih2⟩
        intro hmem
        obtain ⟨e, he, heq⟩ := List.mem_map.mp hmem
        exact ih1 e he (heq ▸ List.mem_cons_self _ _)

/-- Each element kept by `dedupAux` is the first occurrence of its id among
the not-yet-seen ids. -/
theorem dedupAux_first (l : List Event) : ∀ seen : List String, ∀ e ∈ dedupAux seen l,
    ∃ pre post, l = pre ++ e :: post ∧
      ∀ x ∈ pre, x.mt20id ∈ seen ∨ x.mt20id ≠ e.mt20id := by
  induction l with
  | nil =>
    intro seen e he
    simp [dedupAux] at he
  | cons a tl ih =>
    intro seen e he
    by_cases ha : a.mt20id ∈ seen
    · rw [dedupAux, if_pos ha] at he
      obtain ⟨pre, post, heq, hpre⟩ := ih seen e he
      refine ⟨a :: pre, post, by rw [heq, List.cons_append], ?_⟩
      intro x hx
      rcases List.mem_cons.mp hx with hx | hx
      · subst hx
        exact Or.inl ha
      · exact hpre x hx
    · rw [dedupAux, if_neg ha] at he
      rcases List.mem_cons.mp he with he | he
      · subst he
        exact ⟨[], tl, rfl, by simp⟩
      · obtain ⟨pre, post, heq, hpre⟩ := ih (a.mt20id :: seen) e he
        have hnot := (dedupAux_spec tl (a.mt20id :: seen)).1 e he
        have hne : e.mt20id ≠ a.mt20id := fun hEq =>
          hnot (hEq ▸ List.mem_cons_self _ _)
        refine ⟨a :: pre, post, by rw [heq, List.cons_append], ?_⟩
        intro x hx
        rcases List.mem_cons.mp hx with hx | hx
        · subst hx
          exact Or.inr (fun hEq => hne hEq.symm)
        · rcases hpre x hx with hx2 | hx2
          · rcases List.mem_cons.mp hx2 with h3 | h3
            · exact Or.inr (by rw [h3]; exact fun hEq => hne hEq.symm)
            · exact Or.inl h3
          · exact Or.inr hx2

/-- De-duplicated lists have pairwise-distinct ids. -/
theorem deduplicateEvents_nodup (l : List Event) :
    ((deduplicateEvents l).map Event.mt20id).Nodup :=
  (dedupAux_spec l []).2

/-- First occurrence wins: every kept event is preceded in the input only by
events with different ids. -/
theorem deduplicateEvents_first (l : List Event) :
    ∀ e ∈ deduplicateEvents l, ∃ pre post, l = pre ++ e :: post ∧
      ∀ x ∈ pre, x.mt20id ≠ e.mt20id := by
  intro e he
  obtain ⟨pre, post, heq, hpre⟩ := dedupAux_first l [] e he
  exact ⟨pre, post, heq, fun x hx => (hpre x hx).resolve_left (by simp)⟩

/-! ## Per-level result lemmas -/

/-- An upstream client none of whose individual successful responses repeats
an event id (duplicates can then only arise from merging fan-out batches). -/
def PerCallNodup (u : Upstream) : Prop :=
  (∀ p evs, u.filterFreeEvents p = Except.ok evs → (evs.map Event.mt20id).Nodup) ∧
  (∀ p evs, u.getTrendingPerformances p = Except.ok evs → (evs.map Event.mt20id).Nodup) ∧
  (∀ p evs, u.searchEventsByLocation p = Except.ok evs → (evs.map Event.mt20id).Nodup)

/-- A successful bind factors through a successful first step. -/
theorem bind_ok_elim {α β : Type} {x : Except Unit α} {f : α → Except Unit β} {r : β}
    (h : (x >>= f) = Except.ok r) : ∃ a, x = Except.ok a ∧ f a = Except.ok r := by
  cases x with
  | error e => cases e; rw [error_bind] at h; cases h
  | ok a => exact ⟨a, rfl, h⟩

/-- A single dispatched upstream call returns distinct ids. -/
theorem fetchByTool_nodup {u : Upstream} {tool : String} {args : Args} {evs : List Event}
    (hN : PerCallNodup u) (h : fetchByTool u tool args = Except.ok evs) :
    (evs.map Event.mt20id).Nodup := by
  unfold fetchByTool at h
  split_ifs at h
  · exact hN.1 _ _ h
  · exact hN.2.1 _ _ h
  · exact hN.2.2 _ _ h

/-- Level 1 results have distinct ids. -/
theorem executeLevel1_nodup {u : Upstream} {tool : String} {args : Args} {lr : LevelResult}
    (hN : PerCallNodup u) (h : executeLevel1 u tool args = Except.ok lr) :
    (lr.events.map Event.mt20id).Nodup := by
  unfold executeLevel1 at h
  obtain ⟨evs, hf, h2⟩ := bind_ok_elim h
  cases h2
  exact fetchByTool_nodup hN hf

/-- Level 2 results have distinct ids (single re-issues by the hypothesis,
fan-outs by de-duplication). -/
theorem executeLevel2_nodup {u : Upstream} {tool : String} {args : Args} {lr : LevelResult}
    (hN : PerCallNodup u) (h : executeLevel2 u tool args = Except.ok lr) :
    (lr.events.map Event.mt20id).Nodup := by
  unfold executeLevel2 at h
  split_ifs at h <;>
    obtain ⟨x, hf, h2⟩ := bind_ok_elim h <;> cases h2 <;>
    first
    | exact fetchByTool_nodup hN hf
    | exact deduplicateEvents_nodup _

/-- Level 3 results have distinct ids. -/
theorem executeLevel3_nodup {u : Upstream} {tool : String} {args : Args} {lr : LevelResult}
    (hN : PerCallNodup u) (h : executeLevel3 u tool args = Except.ok lr) :
    (lr.events.map Event.mt20id).Nodup := by
  unfold executeLevel3 at h
  split_ifs at h <;>
    obtain ⟨x, hf, h2⟩ := bind_ok_elim h <;> cases h2 <;>
    first
    | exact fetchByTool_nodup hN hf
    | exact deduplicateEvents_nodup _

/-- Level 4 results have distinct ids (always de-duplicated, no hypothesis on
the upstream needed). -/
theorem executeLevel4_nodup {u : Upstream} {tool : String} {args : Args} {today : Today}
    {lr : LevelResult} (h : executeLevel4 u tool args today = Except.ok lr) :
    (lr.events.map Event.mt20id).Nodup := by
  unfold executeLevel4 at h
  obtain ⟨ed, hed, h2⟩ := bind_ok_elim h
  cases h2
  exact deduplicateEvents_nodup _

/-! ## `formatResult` lemmas -/

/-- A `jsSliceTo` slice is a prefix of its input. -/
theorem jsSliceTo_sublist {α : Type} (l : List α) (n : Int) :
    List.Sublist (jsSliceTo l n) l := by
  unfold jsSliceTo
  split_ifs <;> exact List.take_sublist _ _

/-- Scoring preserves the event list up to permutation. -/
theorem scoreAndSort_map_event (evs : List Event) (p : PriorityWeights) (c : Criteria) :
    ((scoreAndSort evs p c).map EventScore.event).Perm evs := by
  unfold scoreAndSort
  have h := (List.perm_insertionSort scoreGE
    (evs.map (fun e => calculateScore e p c))).map EventScore.event
  rw [List.map_map] at h
  have h2 : evs.map (EventScore.event ∘ fun e => calculateScore e p c) = evs := by
    have hfun : (EventScore.event ∘ fun e => calculateScore e p c) = fun e => e := by
      funext e
      exact calculateScore_event e p c
    rw [hfun]
    exact List.map_id' evs
  rw [h2] at h
  exact h

/-- The sorted score list is non-increasing in `totalScore`. -/
theorem scoreAndSort_sorted (evs : List Event) (p : PriorityWeights) (c : Criteria) :
    List.Pairwise (fun a b => b.totalScore ≤ a.totalScore) (scoreAndSort evs p c) :=
  List.sorted_insertionSort scoreGE _

/-- The sorted score list has the same length as the input. -/
theorem scoreAndSort_length (evs : List Event) (p : PriorityWeights) (c : Criteria) :
    (scoreAndSort evs p c).length = evs.length := by
  unfold scoreAndSort
  rw [List.length_insertionSort, List.length_map]

/-- The fields of `formatResult`, computed. -/
theorem formatResult_def (evs : List Event) (lvl : Int) (rel : List String)
    (an : QueryAnalysis) (m : Int) :
    (formatResult evs lvl rel an m).events =
      (jsSliceTo (scoreAndSort evs an.priorities (formatCriteria an)) m).map EventScore.event ∧
    (formatResult evs lvl rel an m).scores =
      some (jsSliceTo (scoreAndSort evs an.priorities (formatCriteria an)) m) ∧
    (formatResult evs lvl rel an m).level = lvl ∧
    (formatResult evs lvl rel an m).relaxedConditions = rel :=
  ⟨rfl, rfl, rfl, rfl⟩

/-- Distinct input ids give distinct result ids. -/
theorem formatResult_nodup (evs : List Event) (lvl : Int) (rel : List String)
    (an : QueryAnalysis) (m : Int) (h : (evs.map Event.mt20id).Nodup) :
    (((formatResult evs lvl rel an m).events).map Event.mt20id).Nodup := by
  rw [(formatResult_def evs lvl rel an m).1]
  have hsub : List.Sublist
      ((jsSliceTo (scoreAndSort evs an.priorities (formatCriteria an)) m).map EventScore.event)
      ((scoreAndSort evs an.priorities (formatCriteria an)).map EventScore.event) :=
    (jsSliceTo_sublist _ _).map _
  have hperm := scoreAndSort_map_event evs an.priorities (formatCriteria an)
  have h1 : (((scoreAndSort evs an.priorities (formatCriteria an)).map
      EventScore.event).map Event.mt20id).Nodup :=
    ((hperm.map Event.mt20id).nodup_iff).mpr h
  exact (hsub.map Event.mt20id).nodup h1

/-- With `0 ≤ m ≤` the number of events, exactly `m` events are returned. -/
theorem formatResult_length (evs : List Event) (lvl : Int) (rel : List String)
    (an : QueryAnalysis) (m : Int) (h0 : 0 ≤ m) (hle : m ≤ (evs.length : Int)) :
    ((formatResult evs lvl rel an m).events.length : Int) = m := by
  rw [(formatResult_def evs lvl rel an m).1, List.length_map]
  unfold jsSliceTo
  rw [if_neg (by omega), List.length_take, scoreAndSort_length]
  omega

/-! ## `search` characterisation -/

/-- On `Except`, `pure` is `Except.ok`. -/
theorem pure_ok {α : Type} (a : α) : (pure a : Except Unit α) = Except.ok a := rfl

/-- The function `search` computed, given that analysis and all four levels return. -/
theorem search_eq_cases {u : Upstream} {tool : String} {args : Args} {today : Today}
    {an : QueryAnalysis} {l1 l2 l3 l4 : LevelResult}
    (hAn : analyze tool args = Except.ok an)
    (h1 : executeLevel1 u tool args = Except.ok l1)
    (h2 : executeLevel2 u tool args = Except.ok l2)
    (h3 : executeLevel3 u tool args = Except.ok l3)
    (h4 : executeLevel4 u tool args today = Except.ok l4) :
    search u tool args today = Except.ok
      (if jsOrIntV an.parsedParams.minCount 3 ≤ (l1.events.length : Int) then
        formatResult l1.events 1 [] an (jsOrIntV an.parsedParams.minCount 3)
      else if jsOrIntV an.parsedParams.minCount 3 ≤ (l2.events.length : Int) then
        formatResult l2.events 2 l2.relaxed an (jsOrIntV an.parsedParams.minCount 3)
      else if jsOrIntV an.parsedParams.minCount 3 ≤ (l3.events.length : Int) then
        formatResult l3.events 3 l3.relaxed an (jsOrIntV an.parsedParams.minCount 3)
      else if jsOrIntV an.parsedParams.minCount 3 ≤ (l4.events.length : Int) then
        formatResult l4.events 4 l4.relaxed an (jsOrIntV an.parsedParams.minCount 3)
      else
        ⟨l4.events, 0, l4.relaxed,
          generateFailureMessage (jsOrIntV an.parsedParams.minCount 3)
            (l4.events.length : Int), none⟩) := by
  unfold search
  rw [hAn]
  simp only [ok_bind]
  rw [h1]
  simp only [ok_bind]
  rw [h2]
  simp only [ok_bind]
  rw [h3]
  simp only [ok_bind]
  rw [h4]
  simp only [ok_bind, pure_ok]
  split_ifs <;> rfl

/-- Any successful `search` arose from one of the five terminal branches. -/
theorem search_ok_elim {u : Upstream} {tool : String} {args : Args} {today : Today}
    {res : SmartSearchResult} (h : search u tool args today = Except.ok res) :
    ∃ an, analyze tool args = Except.ok an ∧
      ((∃ lr, executeLevel1 u tool args = Except.ok lr ∧
          res = formatResult lr.events 1 [] an (jsOrIntV an.parsedParams.minCount 3)) ∨
       (∃ lr, executeLevel2 u tool args = Except.ok lr ∧
          res = formatResult lr.events 2 lr.relaxed an (jsOrIntV an.parsedParams.minCount 3)) ∨
       (∃ lr, executeLevel3 u tool args = Except.ok lr ∧
          res = formatResult lr.events 3 lr.relaxed an (jsOrIntV an.parsedParams.minCount 3)) ∨
       (∃ lr, executeLevel4 u tool args today = Except.ok lr ∧
          res = formatResult lr.events 4 lr.relaxed an (jsOrIntV an.parsedParams.minCount 3)) ∨
       (∃ lr, executeLevel4 u tool args today = Except.ok lr ∧
          res = ⟨lr.events, 0, lr.relaxed,
            generateFailureMessage (jsOrIntV an.parsedParams.minCount 3)
              (lr.events.length : Int), none⟩)) := by
  unfold search at h
  obtain ⟨an, hAn, h⟩ := bind_ok_elim h
  refine ⟨an, hAn, ?_⟩
  obtain ⟨l1, hL1, h⟩ := bind_ok_elim h
  by_cases c1 : jsOrIntV an.parsedParams.minCount 3 ≤ (l1.events.length : Int)
  · rw [if_pos c1, pure_ok] at h
    cases h
    exact Or.inl ⟨l1, hL1, rfl⟩
  · rw [if_neg c1] at h
    obtain ⟨l2, hL2, h⟩ := bind_ok_elim h
    by_cases c2 : jsOrIntV an.parsedParams.minCount 3 ≤ (l2.events.length : Int)
    · rw [if_pos c2, pure_ok] at h
      cases h
      exact Or.inr (Or.inl ⟨l2, hL2, rfl⟩)
    · rw [if_neg c2] at h
      obtain ⟨l3, hL3, h⟩ := bind_ok_elim h
      by_cases c3 : jsOrIntV an.parsedParams.minCount 3 ≤ (l3.events.length : Int)
      · rw [if_pos c3, pure_ok] at h
        cases h
        exact Or.inr (Or.inr (Or.inl ⟨l3, hL3, rfl⟩))
      · rw [if_neg c3] at h
        obtain ⟨l4, hL4, h⟩ := bind_ok_elim h
        by_cases c4 : jsOrIntV an.parsedParams.minCount 3 ≤ (l4.events.length : Int)
        · rw [if_pos c4, pure_ok] at h
          cases h
          exact Or.inr (Or.inr (Or.inr (Or.inl ⟨l4, hL4, rfl⟩)))
        · rw [if_neg c4, pure_ok] at h
          cases h
          exact Or.inr (Or.inr (Or.inr (Or.inr ⟨l4, hL4, rfl⟩)))

/-! ## C1 — exception propagation -/

/-- The level-4 end-date computation (and hence level 4 as a whole) returns
whenever the request's `endDate` is falsy or a string; the per-genre fan-out
never fails. -/
theorem level4_total (u : Upstream) (tool : String) (args : Args) (today : Today)
    (hEnd : ¬ args.endDate.truthy ∨ ∃ s, args.endDate = JVal.str s) :
    ∃ lr, executeLevel4 u tool args today = Except.ok lr := by
  have hed : ∃ ed, level4EndDate args today = Except.ok ed := by
    unfold level4EndDate
    by_cases ht : args.endDate.truthy
    · rcases hEnd with hc | ⟨s, hs⟩
      · exact absurd ht hc
      · rw [if_pos ht, hs]
        simp only [JVal.asJsString, ok_bind]
        rcases hp : parseYMD s with _ | d <;> exact ⟨_, rfl⟩
    · rw [if_neg ht]
      exact ⟨_, rfl⟩
  obtain ⟨ed, hed⟩ := hed
  unfold executeLevel4
  rw [hed]
  simp only [ok_bind]
  exact ⟨_, rfl⟩

/-- Claim C1 (corrected, counterexample): an upstream transport failure during
Level 1 propagates out of `search` as an exception — the caller does not
receive a `SmartSearchResult`. -/
theorem search_raises_on_level1_failure :
    search mockFail "search_events_by_location" argsPlain today0 = Except.error () := rfl

/-- Claim C1 (amended): only Level 4's per-genre fan-out failures are caught
and skipped (level 4 always returns when `endDate` is well-typed, and a
failing genre is skipped without aborting the rest); an upstream failure at
levels 1–3 — single-call or fan-out alike — propagates, so the caller
receives a `SmartSearchResult` whenever analysis and levels 1–3 return. -/
theorem search_failure_propagation :
    (∀ (u : Upstream) (tool : String) (args : Args) (today : Today)
        (an : QueryAnalysis) (l1 l2 l3 : LevelResult),
      analyze tool args = Except.ok an →
      executeLevel1 u tool args = Except.ok l1 →
      executeLevel2 u tool args = Except.ok l2 →
      executeLevel3 u tool args = Except.ok l3 →
      (¬ args.endDate.truthy ∨ ∃ s, args.endDate = JVal.str s) →
      ∃ res, search u tool args today = Except.ok res) ∧
    (∃ lr, executeLevel4 mockSkipA "search_events_by_location" argsPlain today0 =
        Except.ok lr ∧ evB ∈ lr.events) := by
  constructor
  · intro u tool args today an l1 l2 l3 hAn h1 h2 h3 hEnd
    obtain ⟨l4, h4⟩ := level4_total u tool args today hEnd
    exact ⟨_, search_eq_cases hAn h1 h2 h3 h4⟩
  · exact ⟨_, rfl, by decide⟩

/-- Witness for `search_failure_propagation` at a concrete mock. -/
theorem search_failure_propagation_witness :
    ∃ res, search mock3 "search_events_by_location" argsPlain today0 = Except.ok res :=
  search_failure_propagation.1 mock3 "search_events_by_location" argsPlain today0
    _ _ _ _ rfl rfl rfl rfl (Or.inl (by decide))

/-! ## C2 — minimum-count guarantee -/

/-- A request with genre and a negative limit. -/
def argsNeg2 : Args := ⟨some "AAAA", .undef, .undef, none, none, some (-1)⟩

/-- Claim C2 (corrected, counterexample): with `limit = -1` the effective
`minCount` is `-1`; Level 1 already yields 3 ≥ -1 events and the result has
level 1, but `events.length = 2 ≠ minCount` (JS `slice(0, -1)` drops the last
element instead of truncating to `minCount`). -/
theorem minCount_negative_limit_counterexample :
    ((search mock3 "search_events_by_location" argsNeg2 today0).map
      (fun r => (r.level, (r.events.length : Int)))) = Except.ok (1, 2) ∧
    ((executeLevel1 mock3 "search_events_by_location" argsNeg2).map
      (fun lr => (lr.events.length : Int))) = Except.ok 3 ∧
    (∃ qa, analyze "search_events_by_location" argsNeg2 = Except.ok qa ∧
      jsOrIntV qa.parsedParams.minCount 3 = -1) ∧
    (2 : Int) ≠ -1 :=
  ⟨by with_unfolding_all rfl, rfl, ⟨_, rfl, rfl⟩, by decide⟩

/-- Claim C2 (amended): for a fixed upstream whose levels all return, and an
effective `minCount` `m > 0` (limit absent/zero, or positive), the first
level whose event count reaches `m` is the returned level, and exactly `m`
events are returned after scoring and top-N truncation. -/
theorem minCount_guarantee (u : Upstream) (tool : String) (args : Args) (today : Today)
    (an : QueryAnalysis) (l1 l2 l3 l4 : LevelResult) (m : Int)
    (hAn : analyze tool args = Except.ok an)
    (hm : m = jsOrIntV an.parsedParams.minCount 3)
    (hpos : 0 < m)
    (h1 : executeLevel1 u tool args = Except.ok l1)
    (h2 : executeLevel2 u tool args = Except.ok l2)
    (h3 : executeLevel3 u tool args = Except.ok l3)
    (h4 : executeLevel4 u tool args today = Except.ok l4) :
    ∃ r, search u tool args today = Except.ok r ∧
      (m ≤ (l1.events.length : Int) → r.level = 1 ∧ (r.events.length : Int) = m) ∧
      ((l1.events.length : Int) < m → m ≤ (l2.events.length : Int) →
        r.level = 2 ∧ (r.events.length : Int) = m) ∧
      ((l1.events.length : Int) < m → (l2.events.length : Int) < m →
        m ≤ (l3.events.length : Int) → r.level = 3 ∧ (r.events.length : Int) = m) ∧
      ((l1.events.length : Int) < m → (l2.events.length : Int) < m →
        (l3.events.length : Int) < m → m ≤ (l4.events.length : Int) →
        r.level = 4 ∧ (r.events.length : Int) = m) := by
  subst hm
  refine ⟨_, search_eq_cases hAn h1 h2 h3 h4, ?_, ?_, ?_, ?_⟩
  · intro hc1
    rw [if_pos hc1]
    exact ⟨(formatResult_def _ _ _ _ _).2.2.1,
      formatResult_length _ _ _ _ _ (le_of_lt hpos) hc1⟩
  · intro hlt1 hc2
    rw [if_neg (not_le.mpr hlt1), if_pos hc2]
    exact ⟨(formatResult_def _ _ _ _ _).2.2.1,
      formatResult_length _ _ _ _ _ (le_of_lt hpos) hc2⟩
  · intro hlt1 hlt2 hc3
    rw [if_neg (not_le.mpr hlt1), if_neg (not_le.mpr hlt2), if_pos hc3]
    exact ⟨(formatResult_def _ _ _ _ _).2.2.1,
      formatResult_length _ _ _ _ _ (le_of_lt hpos) hc3⟩
  · intro hlt1 hlt2 hlt3 hc4
    rw [if_neg (not_le.mpr hlt1), if_neg (not_le.mpr hlt2), if_neg (not_le.mpr hlt3),
      if_pos hc4]
    exact ⟨(formatResult_def _ _ _ _ _).2.2.1,
      formatResult_length _ _ _ _ _ (le_of_lt hpos) hc4⟩

/-- Witness for `minCount_guarantee`: three events at level 1 against
`minCount = 2` give level 1 and exactly two events. -/
theorem minCount_guarantee_witness :
    ∃ r, search mock3 "search_events_by_location" argsTight today0 = Except.ok r ∧
      r.level = 1 ∧ (r.events.length : Int) = 2 := by
  obtain ⟨r, hr, hc, -, -, -⟩ :=
    minCount_guarantee mock3 "search_events_by_location" argsTight today0
      _ _ _ _ _ 2 rfl rfl (by decide) rfl rfl rfl rfl
  obtain ⟨hl, hn⟩ := hc (by decide)
  exact ⟨r, hr, hl, hn⟩

/-! ## C5 — the level-0 failure result -/

/-- A request whose limit demands five events. -/
def argsLimit5 : Args := ⟨some "AAAA", .undef, .undef, none, none, some 5⟩

/-- Claim C5 (confirmed): when every level stays below `minCount`, `search`
returns level 0 carrying all of Level 4's de-duplicated events (untruncated),
Level 4's relaxation log, no scores, and the failure message — which contains
both `minCount` and the found count as substrings. -/
theorem level0_failure_result (u : Upstream) (tool : String) (args : Args) (today : Today)
    (an : QueryAnalysis) (l1 l2 l3 l4 : LevelResult) (m : Int)
    (hAn : analyze tool args = Except.ok an)
    (hm : m = jsOrIntV an.parsedParams.minCount 3)
    (h1 : executeLevel1 u tool args = Except.ok l1)
    (h2 : executeLevel2 u tool args = Except.ok l2)
    (h3 : executeLevel3 u tool args = Except.ok l3)
    (h4 : executeLevel4 u tool args today = Except.ok l4)
    (hc1 : (l1.events.length : Int) < m) (hc2 : (l2.events.length : Int) < m)
    (hc3 : (l3.events.length : Int) < m) (hc4 : (l4.events.length : Int) < m) :
    search u tool args today = Except.ok
      ⟨l4.events, 0, l4.relaxed, generateFailureMessage m (l4.events.length : Int), none⟩ ∧
    (∃ p q, generateFailureMessage m (l4.events.length : Int) = p ++ toString m ++ q) ∧
    (∃ p q, generateFailureMessage m (l4.events.length : Int) =
      p ++ toString (l4.events.length : Int) ++ q) := by
  subst hm
  refine ⟨?_, ?_, ?_⟩
  · rw [search_eq_cases hAn h1 h2 h3 h4, if_neg (not_le.mpr hc1),
      if_neg (not_le.mpr hc2), if_neg (not_le.mpr hc3), if_neg (not_le.mpr hc4)]
  · refine ⟨"❌ 죄송합니다. 조건에 맞는 공연을 ",
      "개 이상 찾지 못했습니다. (" ++ toString (l4.events.length : Int) ++ "개 발견)" ++
        "\n\n다음과 같이 시도해보세요:\n  • 기간을 더 길게 설정 (예: 다음달까지)" ++
        "\n  • 최소 개수를 줄여서 검색 (1~2개)\n  • 지역 제한 없이 전국 검색", ?_⟩
    simp [generateFailureMessage, String.append_assoc]
  · refine ⟨"❌ 죄송합니다. 조건에 맞는 공연을 " ++
      toString (jsOrIntV an.parsedParams.minCount 3) ++ "개 이상 찾지 못했습니다. (",
      "개 발견)" ++
        "\n\n다음과 같이 시도해보세요:\n  • 기간을 더 길게 설정 (예: 다음달까지)" ++
        "\n  • 최소 개수를 줄여서 검색 (1~2개)\n  • 지역 제한 없이 전국 검색", ?_⟩
    simp [generateFailureMessage, String.append_assoc]

/-- Witness for `level0_failure_result`: two events everywhere against
`minCount = 5`. -/
theorem level0_failure_result_witness :
    ∃ l4, executeLevel4 mock2 "search_events_by_location" argsLimit5 today0 = Except.ok l4 ∧
      search mock2 "search_events_by_location" argsLimit5 today0 = Except.ok
        ⟨l4.events, 0, l4.relaxed, generateFailureMessage 5 (l4.events.length : Int), none⟩ := by
  refine ⟨_, rfl, ?_⟩
  exact (level0_failure_result mock2 "search_events_by_location" argsLimit5 today0
    _ _ _ _ _ 5 rfl rfl rfl rfl rfl rfl (by decide) (by decide) (by decide) (by decide)).1

/-! ## C6 — de-duplication of returned events -/

/-- The constant mock returns distinct ids on every call. -/
theorem mock3_nodup : PerCallNodup mock3 := by
  refine ⟨?_, ?_, ?_⟩ <;> intro p evs h <;> cases h <;> decide

/-- Claim C6 (confirmed): against any upstream whose individual responses carry
distinct ids (so duplicates only arise from fan-out merging), every
successful `search` result — every level, the level-0 failure included — has
pairwise-distinct `mt20id`s; and merging de-duplicates by first occurrence in
merge order. -/
theorem result_events_nodup (u : Upstream) (tool : String) (args : Args) (today : Today)
    (res : SmartSearchResult) (hN : PerCallNodup u)
    (h : search u tool args today = Except.ok res) :
    ((res.events.map Event.mt20id).Nodup) ∧
    (∀ (l : List Event), ∀ e ∈ deduplicateEvents l,
      ∃ pre post, l = pre ++ e :: post ∧ ∀ x ∈ pre, x.mt20id ≠ e.mt20id) := by
  refine ⟨?_, fun l => deduplicateEvents_first l⟩
  obtain ⟨an, hAn, hcase⟩ := search_ok_elim h
  rcases hcase with ⟨lr, hL, hres⟩ | ⟨lr, hL, hres⟩ | ⟨lr, hL, hres⟩ | ⟨lr, hL, hres⟩ |
    ⟨lr, hL, hres⟩ <;> subst hres
  · exact formatResult_nodup _ _ _ _ _ (executeLevel1_nodup hN hL)
  · exact formatResult_nodup _ _ _ _ _ (executeLevel2_nodup hN hL)
  · exact formatResult_nodup _ _ _ _ _ (executeLevel3_nodup hN hL)
  · exact formatResult_nodup _ _ _ _ _ (executeLevel4_nodup hL)
  · exact executeLevel4_nodup hL

/-- Witness for `result_events_nodup` at the constant mock. -/
theorem result_events_nodup_witness :
    ∃ res, search mock3 "search_events_by_location" argsPlain today0 = Except.ok res ∧
      (res.events.map Event.mt20id).Nodup := by
  have hres := @search_eq_cases mock3 "search_events_by_location" argsPlain today0
    _ _ _ _ _ rfl rfl rfl rfl rfl
  exact ⟨_, hres, (result_events_nodup mock3 "search_events_by_location" argsPlain today0
    _ mock3_nodup hres).1⟩

/-! ## C9 — no InvalidParams rejection exists -/

/-- A request omitting every field, the required genre code included. -/
def argsEmpty : Args := ⟨none, .undef, .undef, none, none, none⟩

/-- Claim C9 (code bug): the engine performs no parameter validation at all.
With the required genre code and both dates omitted, `search` still issues
the upstream call — a failing upstream makes the whole call raise, and a
succeeding upstream yields an ordinary level-1 result; in neither case is
there an InvalidParams rejection before the upstream call. -/
theorem no_invalid_params_rejection :
    search mockFail "search_events_by_location" argsEmpty today0 = Except.error () ∧
    (∃ r, search mock3 "search_events_by_location" argsEmpty today0 = Except.ok r ∧
      r.level = 1 ∧ r.events.length = 3) := by
  have hres := @search_eq_cases mock3 "search_events_by_location" argsEmpty today0
    _ _ _ _ _ rfl rfl rfl rfl rfl
  refine ⟨rfl, _, hres, ?_, ?_⟩
  · with_unfolding_all decide
  · with_unfolding_all decide

/-! ## C10 — the scores field -/

/-- Claim C10 (confirmed): a result at level ≥ 1 carries a scores list whose
entries' events are exactly the returned events in order (same length) with
non-increasing `totalScore`; the level-0 result carries no scores and returns
Level 4's events unscored and untruncated. -/
theorem scores_field_invariants (u : Upstream) (tool : String) (args : Args) (today : Today)
    (res : SmartSearchResult) (h : search u tool args today = Except.ok res) :
    (1 ≤ res.level → ∃ sc, res.scores = some sc ∧ sc.map EventScore.event = res.events ∧
      sc.length = res.events.length ∧
      List.Pairwise (fun a b => b.totalScore ≤ a.totalScore) sc) ∧
    (res.level = 0 → res.scores = none ∧
      ∃ lr, executeLevel4 u tool args today = Except.ok lr ∧ res.events = lr.events) := by
  obtain ⟨an, hAn, hcase⟩ := search_ok_elim h
  have main : ∀ (evs : List Event) (lvl : Int) (rel : List String) (m : Int),
      ∃ sc, (formatResult evs lvl rel an m).scores = some sc ∧
        sc.map EventScore.event = (formatResult evs lvl rel an m).events ∧
        sc.length = (formatResult evs lvl rel an m).events.length ∧
        List.Pairwise (fun a b => b.totalScore ≤ a.totalScore) sc := by
    intro evs lvl rel m
    obtain ⟨he, hs, -, -⟩ := formatResult_def evs lvl rel an m
    refine ⟨_, hs, he.symm, ?_, ?_⟩
    · rw [he, List.length_map]
    · exact (scoreAndSort_sorted evs an.priorities (formatCriteria an)).sublist
        (jsSliceTo_sublist _ _)
  rcases hcase with ⟨lr, hL, hres⟩ | ⟨lr, hL, hres⟩ | ⟨lr, hL, hres⟩ | ⟨lr, hL, hres⟩ |
    ⟨lr, hL, hres⟩ <;> subst hres
  · exact ⟨fun _ => main _ _ _ _, fun h0 => absurd ((formatResult_def _ _ _ _ _).2.2.1 ▸ h0)
      (by norm_num)⟩
  · exact ⟨fun _ => main _ _ _ _, fun h0 => absurd ((formatResult_def _ _ _ _ _).2.2.1 ▸ h0)
      (by norm_num)⟩
  · exact ⟨fun _ => main _ _ _ _, fun h0 => absurd ((formatResult_def _ _ _ _ _).2.2.1 ▸ h0)
      (by norm_num)⟩
  · exact ⟨fun _ => main _ _ _ _, fun h0 => absurd ((formatResult_def _ _ _ _ _).2.2.1 ▸ h0)
      (by norm_num)⟩
  · refine ⟨fun h1 => absurd h1 (by norm_num), fun _ => ⟨rfl, lr, hL, rfl⟩⟩

/-- Witness for `scores_field_invariants` at the constant mock. -/
theorem scores_field_invariants_witness :
    ∃ res sc, search mock3 "search_events_by_location" argsPlain today0 = Except.ok res ∧
      res.scores = some sc ∧ sc.map EventScore.event = res.events ∧
      sc.length = res.events.length ∧
      List.Pairwise (fun a b => b.totalScore ≤ a.totalScore) sc := by
  have hres := @search_eq_cases mock3 "search_events_by_location" argsPlain today0
    _ _ _ _ _ rfl rfl rfl rfl rfl
  obtain ⟨sc, h1, h2, h3, h4⟩ :=
    (scores_field_invariants mock3 "search_events_by_location" argsPlain today0 _ hres).1
      (by with_unfolding_all decide)
  exact ⟨_, sc, hres, h1, h2, h3, h4⟩

end ArtBridge
